import Mathlib

/-!
Verification of the jisu JavaScript tokeniser and parser.

This file is a shallow embedding of the two-stage front end:
the tokeniser (src/unnamed/part_001, with the matchers of
src/src/tokeniser/matchers/tokenMatcher.ts and the token types of
src/unnamed/part_003) and the recursive-descent parser
(src/src/parser/parser.ts with the AST builders of
src/src/parser/ast/types.ts).

JavaScript is modelled as follows: strings are lists of characters,
`charAt`/`charCodeAt` out of range yield `Option.none` (the empty string /
NaN), a JS number that may be negative is an `Int`, and `undefined` values
are `Option.none`; dereferencing `undefined` raises a TypeError, modelled
by the `JsError.typeError` constructor.  Thrown `Error` / `SyntaxError`
values are the `error` / `syntaxError` constructors.  Unbounded loops and
recursion take a fuel argument; exhausting it yields `JsError.outOfFuel`,
which no theorem ever treats as normal behaviour.
-/

/-- The errors the front end can raise: `new Error` (tokeniser, startNode),
`SyntaxError` (parser), a JS TypeError from dereferencing `undefined`,
plus the fuel marker of the embedding. -/
inductive JsError where
  | error (message : String)
  | syntaxError (message : String)
  | typeError (message : String)
  | outOfFuel
deriving DecidableEq, Repr

/-- src/src/tokeniser/tokens/location.ts: SourcePosition.  `position` is an
`Int` because the tokeniser stores `this.position - 1`, which is `-1` for
the EOF token of an empty input. -/
structure SourcePosition where
  line : Int
  column : Int
  position : Int
deriving DecidableEq, Repr

/-- src/src/tokeniser/tokens/location.ts: SourceLocation.  The source field
`end` is a reserved word in Lean and is called `endPos` here. -/
structure SourceLocation where
  start : SourcePosition
  endPos : SourcePosition
deriving DecidableEq, Repr

/-- src/unnamed/part_003: TokenType.  Undefined option fields are `false`
resp. `none`.  Token types with distinct names are distinct objects, so
structural equality coincides with the JS identity used by the token sets. -/
structure TokenType where
  name : String
  isKeyword : Bool := false
  precedence : Option Nat := none
  rightAssociative : Bool := false
deriving DecidableEq, Repr

/-- The `precedence!` non-null assertion used by parseGroupedExpression. -/
def TokenType.prec (t : TokenType) : Nat := t.precedence.getD 0

namespace tt

def EOF : TokenType := { name := "eof" }
def Identifier : TokenType := { name := "identifier" }
def Number : TokenType := { name := "number" }
def String : TokenType := { name := "string" }
def TemplateString : TokenType := { name := "templateString" }
def LeftBrace : TokenType := { name := "\x7b" }
def RightBrace : TokenType := { name := "\x7d" }
def Question : TokenType := { name := "?" }
def Colon : TokenType := { name := ":" }
def SemiColon : TokenType := { name := ";" }
def Increment : TokenType := { name := "++" }
def Decrement : TokenType := { name := "--" }
def Ellipsis : TokenType := { name := "..." }
def Arrow : TokenType := { name := "=>" }

def Async : TokenType := { name := "async", isKeyword := true }
def Await : TokenType := { name := "await", isKeyword := true }
def Break : TokenType := { name := "break", isKeyword := true }
def Case : TokenType := { name := "case", isKeyword := true }
def Catch : TokenType := { name := "catch", isKeyword := true }
def Const : TokenType := { name := "const", isKeyword := true }
def Continue : TokenType := { name := "continue", isKeyword := true }
def Debugger : TokenType := { name := "debugger", isKeyword := true }
def Default : TokenType := { name := "default", isKeyword := true }
def Delete : TokenType := { name := "delete", isKeyword := true }
def Do : TokenType := { name := "do", isKeyword := true }
def Else : TokenType := { name := "else", isKeyword := true }
def False : TokenType := { name := "false", isKeyword := true }
def Finally : TokenType := { name := "finally", isKeyword := true }
def For : TokenType := { name := "for", isKeyword := true }
def Function : TokenType := { name := "function", isKeyword := true }
def If : TokenType := { name := "if", isKeyword := true }
def Let : TokenType := { name := "let", isKeyword := true }
def New : TokenType := { name := "new", isKeyword := true }
def Null : TokenType := { name := "null", isKeyword := true }
def Return : TokenType := { name := "return", isKeyword := true }
def Super : TokenType := { name := "super", isKeyword := true }
def Switch : TokenType := { name := "switch", isKeyword := true }
def This : TokenType := { name := "this", isKeyword := true }
def Throw : TokenType := { name := "throw", isKeyword := true }
def True : TokenType := { name := "true", isKeyword := true }
def Try : TokenType := { name := "try", isKeyword := true }
def Typeof : TokenType := { name := "typeof", isKeyword := true }
def Var : TokenType := { name := "var", isKeyword := true }
def Void : TokenType := { name := "void", isKeyword := true }
def While : TokenType := { name := "while", isKeyword := true }
def With : TokenType := { name := "with", isKeyword := true }
def Yield : TokenType := { name := "yield", isKeyword := true }

def Comma : TokenType := { name := ",", precedence := some 1 }
def Assignment : TokenType := { name := "=", precedence := some 2, rightAssociative := true }
def AddAssignment : TokenType := { name := "+=", precedence := some 2, rightAssociative := true }
def SubtractAssignment : TokenType := { name := "-=", precedence := some 2, rightAssociative := true }
def MultiplyAssignment : TokenType := { name := "*=", precedence := some 2, rightAssociative := true }
def DivideAssignment : TokenType := { name := "/=", precedence := some 2, rightAssociative := true }
def ModulusAssignment : TokenType := { name := "%=", precedence := some 2, rightAssociative := true }
def ExponentialAssignment : TokenType := { name := "**=", precedence := some 2, rightAssociative := true }
def LeftShiftAssignment : TokenType := { name := "<<=", precedence := some 2, rightAssociative := true }
def RightShiftAssignment : TokenType := { name := ">>=", precedence := some 2, rightAssociative := true }
def UnsignedRightShiftAssignment : TokenType := { name := ">>>=", precedence := some 2, rightAssociative := true }
def BitwiseOrAssignment : TokenType := { name := "|=", precedence := some 2, rightAssociative := true }
def BitwiseXorAssignment : TokenType := { name := "^=", precedence := some 2, rightAssociative := true }
def BitwiseAndAssignment : TokenType := { name := "&=", precedence := some 2, rightAssociative := true }
def OrAssignment : TokenType := { name := "||=", precedence := some 2, rightAssociative := true }
def AndAssignment : TokenType := { name := "&&=", precedence := some 2, rightAssociative := true }
def NullCoalescingAssignment : TokenType := { name := "??=", precedence := some 2, rightAssociative := true }
def Or : TokenType := { name := "||", precedence := some 4 }
def NullCoalescing : TokenType := { name := "??", precedence := some 4 }
def And : TokenType := { name := "&&", precedence := some 5 }
def BitwiseOr : TokenType := { name := "|", precedence := some 6 }
def BitwiseXor : TokenType := { name := "^", precedence := some 7 }
def BitwiseAnd : TokenType := { name := "&", precedence := some 8 }
def Equality : TokenType := { name := "==", precedence := some 9 }
def Inequality : TokenType := { name := "!=", precedence := some 9 }
def StrictEquality : TokenType := { name := "===", precedence := some 9 }
def StrictInequality : TokenType := { name := "!==", precedence := some 9 }
def In : TokenType := { name := "in", precedence := some 10 }
def InstanceOf : TokenType := { name := "instanceof", isKeyword := true, precedence := some 10 }
def LessThan : TokenType := { name := "<", precedence := some 10 }
def LessThanEqual : TokenType := { name := "<=", precedence := some 10 }
def GreaterThan : TokenType := { name := ">", precedence := some 10 }
def GreaterThanEqual : TokenType := { name := ">=", precedence := some 10 }
def LeftShift : TokenType := { name := "<<", precedence := some 11 }
def RightShift : TokenType := { name := ">>", precedence := some 11 }
def UnsignedRightShift : TokenType := { name := ">>>", precedence := some 11 }
def Add : TokenType := { name := "+", precedence := some 12 }
def Subtract : TokenType := { name := "-", precedence := some 12 }
def Multiply : TokenType := { name := "*", precedence := some 13 }
def Divide : TokenType := { name := "/", precedence := some 13 }
def Modulus : TokenType := { name := "%", precedence := some 13 }
def Exponential : TokenType := { name := "**", precedence := some 14, rightAssociative := true }
def Not : TokenType := { name := "!", precedence := some 15, rightAssociative := true }
def BitwiseNot : TokenType := { name := "~", precedence := some 15, rightAssociative := true }
def LeftBracket : TokenType := { name := "[", precedence := some 17 }
def RightBracket : TokenType := { name := "]", precedence := some 17 }
def Dot : TokenType := { name := ".", precedence := some 18 }
def LeftParenthesis : TokenType := { name := "(", precedence := some 18 }
def RightParenthesis : TokenType := { name := ")", precedence := some 18 }

end tt

/-- src/unnamed/part_003: variableDeclarationKindTokens. -/
def variableDeclarationKindTokens : List TokenType := [tt.Var, tt.Const, tt.Let]

/-- src/unnamed/part_003: booleanValueTokens. -/
def booleanValueTokens : List TokenType := [tt.True, tt.False]

/-- src/unnamed/part_003: assignmentOperatorTokens. -/
def assignmentOperatorTokens : List TokenType := [
  tt.Assignment, tt.AddAssignment, tt.SubtractAssignment,
  tt.MultiplyAssignment, tt.DivideAssignment, tt.ModulusAssignment,
  tt.ExponentialAssignment, tt.LeftShiftAssignment, tt.RightShiftAssignment,
  tt.UnsignedRightShiftAssignment, tt.BitwiseOrAssignment,
  tt.BitwiseXorAssignment, tt.BitwiseAndAssignment, tt.OrAssignment,
  tt.AndAssignment, tt.NullCoalescingAssignment]

/-- src/unnamed/part_003: unaryOperatorTokens. -/
def unaryOperatorTokens : List TokenType := [
  tt.Add, tt.Subtract, tt.Not, tt.BitwiseNot, tt.Typeof, tt.Void,
  tt.Delete, tt.Throw]

/-- src/unnamed/part_003: updateOperatorTokens. -/
def updateOperatorTokens : List TokenType := [tt.Increment, tt.Decrement]

/-- src/unnamed/part_003: binaryOperatorTokens. -/
def binaryOperatorTokens : List TokenType := [
  tt.LessThan, tt.LessThanEqual, tt.GreaterThan, tt.GreaterThanEqual,
  tt.LeftShift, tt.RightShift, tt.UnsignedRightShift, tt.Add, tt.Subtract,
  tt.Multiply, tt.Divide, tt.Modulus, tt.Exponential, tt.BitwiseOr,
  tt.BitwiseXor, tt.BitwiseAnd, tt.Equality, tt.Inequality,
  tt.StrictEquality, tt.StrictInequality, tt.In, tt.InstanceOf]

/-- src/unnamed/part_003: logicalOperatorTokens. -/
def logicalOperatorTokens : List TokenType := [tt.Or, tt.And, tt.NullCoalescing]

/-- src/unnamed/part_003: groupedOperatorTokens (binary then logical). -/
def groupedOperatorTokens : List TokenType :=
  binaryOperatorTokens ++ logicalOperatorTokens

/-- src/src/tokeniser/tokens/token.ts: `PartialToken`, a token before its
source location is attached. -/
structure PreToken where
  type : TokenType
  value : String
deriving DecidableEq, Repr

/-- src/src/tokeniser/tokens/token.ts: Token.  The current tokeniser
attaches a location to every token it returns. -/
structure Token where
  type : TokenType
  value : String
  location : SourceLocation
deriving DecidableEq, Repr

/-! ## Token matchers (src/src/tokeniser/matchers/tokenMatcher.ts, final
version, lines 821-1584).  The input is the remaining source text; a
`MatchSuccess` holds the matched length and the partial token. -/

/-- tokenMatcher.ts: MatchSuccess.  `MatchFailure` is `Option.none`. -/
structure MatchSuccess where
  length : Nat
  token : PreToken
deriving DecidableEq, Repr

def TokenMatcher : Type := List Char → Option MatchSuccess

/-- tokenMatcher.ts lines 843-849: isIdentifierCharCode.  Note the source
comment says 0-9 but the first range stops at char code 56, which is the
digit 8. -/
def isIdentifierCharCode (charCode : Nat) : Bool :=
  (48 ≤ charCode && charCode ≤ 56) -- the source comments this range 0-9
    || (65 ≤ charCode && charCode ≤ 90) -- A-Z
    || (97 ≤ charCode && charCode ≤ 122) -- a-z
    || charCode == 36 -- dollar sign
    || charCode == 95 -- underscore

/-- `input.charCodeAt(i)`: NaN out of range, modelled as `none`. -/
def charCodeAt (input : List Char) (i : Nat) : Option Nat :=
  (input.get? i).map Char.toNat

/-- `isIdentifierCharCode(input.charCodeAt(i))`; with NaN every comparison
of the source is false. -/
def isIdentifierCharCodeAt (input : List Char) (i : Nat) : Bool :=
  match charCodeAt input i with
  | some c => isIdentifierCharCode c
  | none => false

/-- tokenMatcher.ts: characterMatcher. -/
def characterMatcher (type : TokenType) (char : Char) : TokenMatcher := fun input =>
  if input.get? 0 = some char then
    some { length := 1, token := { type := type, value := String.mk [char] } }
  else none

/-- tokenMatcher.ts: stringMatcher. -/
def stringMatcher (type : TokenType) (str : String) : TokenMatcher := fun input =>
  if str.data.isPrefixOf input then
    some { length := str.length, token := { type := type, value := str } }
  else none

/-- tokenMatcher.ts lines 899-911: keywordMatcher.  A keyword matches only
when the character after it is not an identifier character. -/
def keywordMatcher (type : TokenType) (str : String) : TokenMatcher := fun input =>
  if str.data.isPrefixOf input && !(isIdentifierCharCodeAt input str.length) then
    some { length := str.length, token := { type := type, value := str } }
  else none

/-- The regex character class `[a-zA-Z_$]`. -/
def isRegexIdentFirst (c : Char) : Bool :=
  ('a' ≤ c && c ≤ 'z') || ('A' ≤ c && c ≤ 'Z') || c == '_' || c == '$'

/-- The regex character class `[a-zA-Z0-9_$]`. -/
def isRegexIdentRest (c : Char) : Bool :=
  isRegexIdentFirst c || ('0' ≤ c && c ≤ '9')

/-- tokenMatcher.ts: `regexMatcher(tt.Identifier, /^[a-zA-Z_$][a-zA-Z0-9_$]*/)`,
the anchored greedy match written out. -/
def matchIdentifierRegex : TokenMatcher := fun input =>
  match input with
  | [] => none
  | c :: rest =>
    if isRegexIdentFirst c then
      let matched := c :: rest.takeWhile isRegexIdentRest
      some { length := matched.length,
             token := { type := tt.Identifier, value := String.mk matched } }
    else none

/-- The regex character class `[0-9]`. -/
def isRegexDigit (c : Char) : Bool := '0' ≤ c && c ≤ '9'

/-- tokenMatcher.ts: `regexMatcher(tt.Number, /^[0-9]+/)`. -/
def matchNumberRegex : TokenMatcher := fun input =>
  match input with
  | [] => none
  | c :: rest =>
    if isRegexDigit c then
      let matched := c :: rest.takeWhile isRegexDigit
      some { length := matched.length,
             token := { type := tt.Number, value := String.mk matched } }
    else none

/-- tokenMatcher.ts: matchPlusTokens. -/
def matchPlusTokens : TokenMatcher := fun input =>
  if input.get? 0 = some '+' then
    if input.get? 1 = some '+' then
      some { length := 2, token := { type := tt.Increment, value := "++" } }
    else if input.get? 1 = some '=' then
      some { length := 2, token := { type := tt.AddAssignment, value := "+=" } }
    else
      some { length := 1, token := { type := tt.Add, value := "+" } }
  else none

/-- tokenMatcher.ts: matchMinusTokens. -/
def matchMinusTokens : TokenMatcher := fun input =>
  if input.get? 0 = some '-' then
    if input.get? 1 = some '-' then
      some { length := 2, token := { type := tt.Decrement, value := "--" } }
    else if input.get? 1 = some '=' then
      some { length := 2, token := { type := tt.SubtractAssignment, value := "-=" } }
    else
      some { length := 1, token := { type := tt.Subtract, value := "-" } }
  else none

/-- tokenMatcher.ts: matchStarTokens. -/
def matchStarTokens : TokenMatcher := fun input =>
  if input.get? 0 = some '*' then
    if input.get? 1 = some '*' then
      if input.get? 2 = some '=' then
        some { length := 3, token := { type := tt.ExponentialAssignment, value := "**=" } }
      else
        some { length := 2, token := { type := tt.Exponential, value := "**" } }
    else if input.get? 1 = some '=' then
      some { length := 2, token := { type := tt.MultiplyAssignment, value := "*=" } }
    else
      some { length := 1, token := { type := tt.Multiply, value := "*" } }
  else none

/-- tokenMatcher.ts: matchDivideTokens. -/
def matchDivideTokens : TokenMatcher := fun input =>
  if input.get? 0 = some '/' then
    if input.get? 1 = some '=' then
      some { length := 2, token := { type := tt.DivideAssignment, value := "/=" } }
    else
      some { length := 1, token := { type := tt.Divide, value := "/" } }
  else none

/-- tokenMatcher.ts: matchModulusTokens. -/
def matchModulusTokens : TokenMatcher := fun input =>
  if input.get? 0 = some '%' then
    if input.get? 1 = some '=' then
      some { length := 2, token := { type := tt.ModulusAssignment, value := "%=" } }
    else
      some { length := 1, token := { type := tt.Modulus, value := "%" } }
  else none

/-- tokenMatcher.ts: matchLeftArrowTokens. -/
def matchLeftArrowTokens : TokenMatcher := fun input =>
  if input.get? 0 = some '<' then
    if input.get? 1 = some '<' then
      if input.get? 2 = some '=' then
        some { length := 3, token := { type := tt.LeftShiftAssignment, value := "<<=" } }
      else
        some { length := 2, token := { type := tt.LeftShift, value := "<<" } }
    else if input.get? 1 = some '=' then
      some { length := 2, token := { type := tt.LessThanEqual, value := "<=" } }
    else
      some { length := 1, token := { type := tt.LessThan, value := "<" } }
  else none

/-- tokenMatcher.ts: matchRightArrowTokens. -/
def matchRightArrowTokens : TokenMatcher := fun input =>
  if input.get? 0 = some '>' then
    if input.get? 1 = some '>' then
      if input.get? 2 = some '>' then
        if input.get? 3 = some '=' then
          some { length := 4, token := { type := tt.UnsignedRightShiftAssignment, value := ">>>=" } }
        else
          some { length := 3, token := { type := tt.UnsignedRightShift, value := ">>>" } }
      else if input.get? 2 = some '=' then
        some { length := 3, token := { type := tt.RightShiftAssignment, value := ">>=" } }
      else
        some { length := 2, token := { type := tt.RightShift, value := ">>" } }
    else if input.get? 1 = some '=' then
      some { length := 2, token := { type := tt.GreaterThanEqual, value := ">=" } }
    else
      some { length := 1, token := { type := tt.GreaterThan, value := ">" } }
  else none

/-- tokenMatcher.ts: matchEqualTokens. -/
def matchEqualTokens : TokenMatcher := fun input =>
  if input.get? 0 = some '=' then
    if input.get? 1 = some '=' then
      if input.get? 2 = some '=' then
        some { length := 3, token := { type := tt.StrictEquality, value := "===" } }
      else
        some { length := 2, token := { type := tt.Equality, value := "==" } }
    else
      some { length := 1, token := { type := tt.Assignment, value := "=" } }
  else none

/-- tokenMatcher.ts: matchExclamationTokens. -/
def matchExclamationTokens : TokenMatcher := fun input =>
  if input.get? 0 = some '!' then
    if input.get? 1 = some '=' then
      if input.get? 2 = some '=' then
        some { length := 3, token := { type := tt.StrictInequality, value := "!==" } }
      else
        some { length := 2, token := { type := tt.Inequality, value := "!=" } }
    else
      some { length := 1, token := { type := tt.Not, value := "!" } }
  else none

/-- tokenMatcher.ts: matchBarTokens. -/
def matchBarTokens : TokenMatcher := fun input =>
  if input.get? 0 = some '|' then
    if input.get? 1 = some '|' then
      if input.get? 2 = some '=' then
        some { length := 3, token := { type := tt.OrAssignment, value := "||=" } }
      else
        some { length := 2, token := { type := tt.Or, value := "||" } }
    else if input.get? 1 = some '=' then
      some { length := 2, token := { type := tt.BitwiseOrAssignment, value := "|=" } }
    else
      some { length := 1, token := { type := tt.BitwiseOr, value := "|" } }
  else none

/-- tokenMatcher.ts: matchCaretTokens. -/
def matchCaretTokens : TokenMatcher := fun input =>
  if input.get? 0 = some '^' then
    if input.get? 1 = some '=' then
      some { length := 2, token := { type := tt.BitwiseXorAssignment, value := "^=" } }
    else
      some { length := 1, token := { type := tt.BitwiseXor, value := "^" } }
  else none

/-- tokenMatcher.ts: matchAmpersandTokens. -/
def matchAmpersandTokens : TokenMatcher := fun input =>
  if input.get? 0 = some '&' then
    if input.get? 1 = some '&' then
      if input.get? 2 = some '=' then
        some { length := 3, token := { type := tt.AndAssignment, value := "&&=" } }
      else
        some { length := 2, token := { type := tt.And, value := "&&" } }
    else if input.get? 1 = some '=' then
      some { length := 2, token := { type := tt.BitwiseAndAssignment, value := "&=" } }
    else
      some { length := 1, token := { type := tt.BitwiseAnd, value := "&" } }
  else none

/-- tokenMatcher.ts: matchQuestionTokens. -/
def matchQuestionTokens : TokenMatcher := fun input =>
  if input.get? 0 = some '?' then
    if input.get? 1 = some '?' then
      if input.get? 2 = some '=' then
        some { length := 3, token := { type := tt.NullCoalescingAssignment, value := "??=" } }
      else
        some { length := 2, token := { type := tt.NullCoalescing, value := "??" } }
    else
      some { length := 1, token := { type := tt.Question, value := "?" } }
  else none

/-- The walk of matchSingleLineString and matchTemplateString over the
characters after the opening quote.  `lastChar` starts as the empty JS
string, modelled as `none`; the result is the accumulated value.
`allowLineFeed` is false for the single-line matcher. -/
def matchStringBody (quote : Char) (allowLineFeed : Bool) :
    List Char → Option Char → List Char → Option (List Char)
  | [], _, _ => none
  | c :: tl, lastChar, value =>
    if c = quote && lastChar != some '\\' then some value
    else if !allowLineFeed && c = '\n' then none
    else matchStringBody quote allowLineFeed tl (some c) (value ++ [c])

/-- tokenMatcher.ts: matchSingleLineString. -/
def matchSingleLineString : TokenMatcher := fun input =>
  match input with
  | firstChar :: rest =>
    if firstChar = '\'' ∨ firstChar = '"' then
      match matchStringBody firstChar false rest none [] with
      | some value =>
        some { length := value.length + 2,
               token := { type := tt.String, value := String.mk value } }
      | none => none
    else none
  | [] => none

/-- tokenMatcher.ts: matchTemplateString. -/
def matchTemplateString : TokenMatcher := fun input =>
  match input with
  | firstChar :: rest =>
    if firstChar = '`' then
      match matchStringBody firstChar true rest none [] with
      | some value =>
        some { length := value.length + 2,
               token := { type := tt.TemplateString, value := String.mk value } }
      | none => none
    else none
  | [] => none

/-- tokenMatcher.ts lines 1533-1584: matcherMap, as the lookup function
from a first character to its candidate list.  A character that is no key
yields `none`. -/
def matcherMapGet (c : Char) : Option (List TokenMatcher) :=
  if c = 'a' then some [keywordMatcher tt.Async "async", keywordMatcher tt.Await "await"]
  else if c = 'b' then some [keywordMatcher tt.Break "break"]
  else if c = 'c' then some [keywordMatcher tt.Case "case", keywordMatcher tt.Catch "catch", keywordMatcher tt.Const "const", keywordMatcher tt.Continue "continue"]
  else if c = 'd' then some [keywordMatcher tt.Debugger "debugger", keywordMatcher tt.Default "default", keywordMatcher tt.Delete "delete", keywordMatcher tt.Do "do"]
  else if c = 'e' then some [keywordMatcher tt.Else "else"]
  else if c = 'f' then some [keywordMatcher tt.False "false", keywordMatcher tt.Finally "finally", keywordMatcher tt.For "for", keywordMatcher tt.Function "function"]
  else if c = 'i' then some [keywordMatcher tt.If "if", keywordMatcher tt.InstanceOf "instanceof", keywordMatcher tt.In "in"]
  else if c = 'l' then some [keywordMatcher tt.Let "let"]
  else if c = 'n' then some [keywordMatcher tt.New "new", keywordMatcher tt.Null "null"]
  else if c = 'r' then some [keywordMatcher tt.Return "return"]
  else if c = 's' then some [keywordMatcher tt.Super "super", keywordMatcher tt.Switch "switch"]
  else if c = 't' then some [keywordMatcher tt.This "this", keywordMatcher tt.Throw "throw", keywordMatcher tt.True "true", keywordMatcher tt.Try "try", keywordMatcher tt.Typeof "typeof"]
  else if c = 'v' then some [keywordMatcher tt.Var "var", keywordMatcher tt.Void "void"]
  else if c = 'w' then some [keywordMatcher tt.While "while", keywordMatcher tt.With "with"]
  else if c = 'y' then some [keywordMatcher tt.Yield "yield"]
  else if c = ',' then some [characterMatcher tt.Comma ',']
  else if c = '+' then some [matchPlusTokens]
  else if c = '-' then some [matchMinusTokens]
  else if c = '*' then some [matchStarTokens]
  else if c = '/' then some [matchDivideTokens]
  else if c = '%' then some [matchModulusTokens]
  else if c = '<' then some [matchLeftArrowTokens]
  else if c = '>' then some [matchRightArrowTokens]
  else if c = '=' then some [matchEqualTokens]
  else if c = '!' then some [matchExclamationTokens]
  else if c = '|' then some [matchBarTokens]
  else if c = '^' then some [matchCaretTokens]
  else if c = '&' then some [matchAmpersandTokens]
  else if c = '?' then some [matchQuestionTokens]
  else if c = '~' then some [characterMatcher tt.BitwiseNot '~']
  else if c = '[' then some [characterMatcher tt.LeftBracket '[']
  else if c = ']' then some [characterMatcher tt.RightBracket ']']
  else if c = '(' then some [characterMatcher tt.LeftParenthesis '(']
  else if c = ')' then some [characterMatcher tt.RightParenthesis ')']
  else if c = '{' then some [characterMatcher tt.LeftBrace '{']
  else if c = '}' then some [characterMatcher tt.RightBrace '}']
  else if c = ':' then some [characterMatcher tt.Colon ':']
  else if c = ';' then some [characterMatcher tt.SemiColon ';']
  else if c = '.' then some [stringMatcher tt.Ellipsis "...", characterMatcher tt.Dot '.']
  else if c = '\'' then some [matchSingleLineString]
  else if c = '"' then some [matchSingleLineString]
  else if c = '`' then some [matchTemplateString]
  else none

/-- tokenMatcher.ts: the OTHER_CHARS_KEY candidate list. -/
def otherCharsMatchers : List TokenMatcher :=
  [matchIdentifierRegex, matchNumberRegex]

/-- The tokeniser's candidate loop: the first matcher that succeeds. -/
def findFirstMatch : List TokenMatcher → List Char → Option MatchSuccess
  | [], _ => none
  | m :: ms, input =>
    match m input with
    | some result => some result
    | none => findFirstMatch ms input

/-! ## The tokeniser (src/unnamed/part_001). -/

/-- The tokeniser state: the fixed input plus the cursor fields of the
Tokeniser class. -/
structure LexState where
  input : List Char
  position : Nat
  lineNumber : Int
  columnNumber : Int
  tokenStart : SourcePosition
deriving Repr

namespace Tokeniser

/-- part_001 constructor: the initial state for an input. -/
def initState (input : List Char) : LexState :=
  { input := input, position := 0, lineNumber := 0, columnNumber := 0,
    tokenStart := { line := 0, column := 0, position := 0 } }

/-- part_001 lines 75-82: advance, incrementing position and column. -/
def advance (amount : Nat) (st : LexState) : LexState :=
  { st with position := st.position + amount,
            columnNumber := st.columnNumber + amount }

/-- part_001 lines 89-97: addToken.  The location's end is built from the
current line, column and `position - 1`; the produced token is returned
together with the state whose `tokenStart` is reset to the current
position. -/
def addToken (pt : PreToken) (st : LexState) : Token × LexState :=
  let location : SourceLocation :=
    { start := st.tokenStart,
      endPos := { line := st.lineNumber, column := st.columnNumber,
                  position := (st.position : Int) - 1 } }
  let token : Token := { type := pt.type, value := pt.value, location := location }
  (token, { st with tokenStart := { line := st.lineNumber, column := st.columnNumber,
                                    position := (st.position : Int) } })

/-- part_001 lines 110-139: readWhitespace.  Space, carriage return and tab
advance position and column; a line feed advances position, increments the
line and zeroes the column; `tokenStart` is dragged along.  The fuel only
bounds the loop; every call passes `input.length + 1`, which exceeds the
remaining character count, so the fuel-exhausted base case is never
reached. -/
def readWhitespace : Nat → LexState → LexState
  | 0, st => st
  | fuel + 1, st =>
    if h : st.position < st.input.length then
      let charCode := st.input.get ⟨st.position, h⟩
      if charCode = ' ' ∨ charCode = '\r' ∨ charCode = '\t' then
        readWhitespace fuel
          { (advance 1 st) with
            tokenStart := { st.tokenStart with
                            position := st.tokenStart.position + 1,
                            column := st.tokenStart.column + 1 } }
      else if charCode = '\n' then
        readWhitespace fuel
          { st with position := st.position + 1,
                    lineNumber := st.lineNumber + 1,
                    columnNumber := 0,
                    tokenStart := { st.tokenStart with
                                    position := st.tokenStart.position + 1,
                                    line := st.tokenStart.line + 1,
                                    column := 0 } }
      else st
    else st

/-- The two-phase matcher dispatch of part_001 lines 39-59: the bucket for
the next character first, the OTHER_CHARS_KEY bucket when that yields
nothing.  `nextChar` is `input.charAt(position)`, empty out of range. -/
def dispatchMatch (inputStr : List Char) (nextChar : Option Char) : Option MatchSuccess :=
  let fromMap :=
    match nextChar with
    | some c =>
      match matcherMapGet c with
      | some matchers => findFirstMatch matchers inputStr
      | none => none
    | none => none
  match fromMap with
  | some result => some result
  | none => findFirstMatch otherCharsMatchers inputStr

/-- part_001 lines 31-73: the tokenise loop, instrumented: each produced
token is paired with the tokeniser's `position` at the moment addToken ran
(the cursor immediately after the token's characters were consumed).  The
fuel only bounds the iteration count; each iteration consumes at least one
character, so `input.length + 1` is always enough. -/
def tokeniseLoop : Nat → LexState → Except JsError (List (Token × Nat))
  | 0, _ => .error .outOfFuel
  | fuel + 1, st =>
    if st.position < st.input.length then
      let st := readWhitespace (st.input.length + 1) st
      let inputStr := st.input.drop st.position
      let nextChar := st.input.get? st.position
      match dispatchMatch inputStr nextChar with
      | some result =>
        let st := advance result.length st
        let (token, st) := addToken result.token st
        let emitPosition := st.position
        let st := readWhitespace (st.input.length + 1) st
        (tokeniseLoop fuel st).map (fun rest => (token, emitPosition) :: rest)
      | none => .error (.error ("Unable to match input " ++ String.mk inputStr))
    else
      let (token, st) := addToken { type := tt.EOF, value := "EOF" } st
      .ok [(token, st.position)]

/-- part_001 tokenise, instrumented with the emission cursors. -/
def tokeniseAux (source : String) : Except JsError (List (Token × Nat)) :=
  tokeniseLoop (source.length + 1) (initState source.data)

/-- part_001 lines 31-73: tokenise. -/
def tokenise (source : String) : Except JsError (List Token) :=
  (tokeniseAux source).map (List.map Prod.fst)

end Tokeniser

/-! ## The AST (src/src/parser/ast/types.ts, first version, lines 1-818). -/

/-- types.ts NodeExtra: the optional auxiliary record `{location,
trailingComma}`. -/
structure NodeExtra where
  location : Option SourceLocation := none
  trailingComma : Option Bool := none
deriving DecidableEq, Repr

mutual
/-- types.ts: a node is its kind-specific data plus the optional `extra`
record every node may carry. -/
inductive Node where
  | mk (kind : NodeKind) (extra : Option NodeExtra)

/-- The node taxonomy of types.ts; each constructor carries the fields of
the corresponding `type` tag.  Nullable children are `Option Node`;
`prefixed` is the source's boolean field on UpdateExpression. -/
inductive NodeKind where
  | program (body : List Node)
  | identifier (name : String)
  | numericLiteral (value : Int)
  | booleanLiteral (value : Bool)
  | stringLiteral (value : String)
  | templateLiteral (value : String)
  | nullLiteral
  | thisExpression
  | superExpression
  | yieldExpression (argument : Option Node) (delegate : Bool)
  | awaitExpression (argument : Node)
  | assignmentExpression (operator : String) (left : Node) (right : Node)
  | unaryExpression (operator : String) (argument : Node)
  | updateExpression (operator : String) (argument : Node) (prefixed : Bool)
  | binaryExpression (operator : String) (left : Node) (right : Node)
  | logicalExpression (operator : String) (left : Node) (right : Node)
  | sequenceExpression (expressions : List Node)
  | memberExpression (object : Node) (property : Node) (computed : Bool)
  | callExpression (callee : Node) (arguments : List Node)
  | newExpression (callee : Node) (arguments : List Node)
  | conditionalExpression (test : Node) (consequent : Node) (alternate : Node)
  | functionExpression (id : Option Node) (params : List Node) (body : Node)
      (generator : Bool) (async : Bool)
  | arrowFunctionExpression (id : Option Node) (params : List Node) (body : Node)
      (generator : Bool) (async : Bool)
  | arrayExpression (elements : List (Option Node))
  | objectExpression (properties : List Node)
  | doExpression (body : Node) (async : Bool)
  | objectPattern (properties : List Node)
  | arrayPattern (elements : List (Option Node))
  | restElement (argument : Node)
  | assignmentPattern (left : Node) (right : Node)
  | spreadElement (argument : Node)
  | objectProperty (key : Node) (value : Node) (computed : Bool) (shorthand : Bool)
  | objectMethod (kind : String) (key : Node) (id : Option Node) (params : List Node)
      (body : Node) (generator : Bool) (async : Bool) (computed : Bool)
  | blockStatement (body : List Node)
  | emptyStatement
  | expressionStatement (expression : Node)
  | variableDeclarator (id : Node) (init : Node)
  | variableDeclaration (kind : String) (declarators : List Node)
  | ifStatement (test : Node) (consequent : Node) (alternate : Option Node)
  | switchStatement (discriminant : Node) (cases : List Node)
  | switchCase (test : Option Node) (consequent : List Node)
  | forStatement (init : Option Node) (test : Option Node) (update : Option Node)
      (body : Node)
  | whileStatement (test : Node) (body : Node)
  | doWhileStatement (body : Node) (test : Node)
  | tryStatement (block : Node) (handler : Option Node) (finalizer : Option Node)
  | catchClause (param : Option Node) (body : Node)
  | withStatement (object : Node) (body : Node)
  | debuggerStatement
  | labeledStatement (label : Node) (body : Node)
  | returnStatement (argument : Option Node)
  | breakStatement
  | continueStatement
  | functionDeclaration (id : Node) (params : List Node) (body : Node)
      (generator : Bool) (async : Bool)
end

def Node.kind : Node → NodeKind
  | .mk k _ => k

def Node.extra : Node → Option NodeExtra
  | .mk _ e => e

/-- The `type` tag string of a node, as types.ts sets it. -/
def Node.type (n : Node) : String :=
  match n.kind with
  | .program _ => "Program"
  | .identifier _ => "Identifier"
  | .numericLiteral _ => "NumericLiteral"
  | .booleanLiteral _ => "BooleanLiteral"
  | .stringLiteral _ => "StringLiteral"
  | .templateLiteral _ => "TemplateLiteral"
  | .nullLiteral => "NullLiteral"
  | .thisExpression => "ThisExpression"
  | .superExpression => "SuperExpression"
  | .yieldExpression _ _ => "YieldExpression"
  | .awaitExpression _ => "AwaitExpression"
  | .assignmentExpression _ _ _ => "AssignmentExpression"
  | .unaryExpression _ _ => "UnaryExpression"
  | .updateExpression _ _ _ => "UpdateExpression"
  | .binaryExpression _ _ _ => "BinaryExpression"
  | .logicalExpression _ _ _ => "LogicalExpression"
  | .sequenceExpression _ => "SequenceExpression"
  | .memberExpression _ _ _ => "MemberExpression"
  | .callExpression _ _ => "CallExpression"
  | .newExpression _ _ => "NewExpression"
  | .conditionalExpression _ _ _ => "ConditionalExpression"
  | .functionExpression _ _ _ _ _ => "FunctionExpression"
  | .arrowFunctionExpression _ _ _ _ _ => "ArrowFunctionExpression"
  | .arrayExpression _ => "ArrayExpression"
  | .objectExpression _ => "ObjectExpression"
  | .doExpression _ _ => "DoExpression"
  | .objectPattern _ => "ObjectPattern"
  | .arrayPattern _ => "ArrayPattern"
  | .restElement _ => "RestElement"
  | .assignmentPattern _ _ => "AssignmentPattern"
  | .spreadElement _ => "SpreadElement"
  | .objectProperty _ _ _ _ => "ObjectProperty"
  | .objectMethod _ _ _ _ _ _ _ _ => "ObjectMethod"
  | .blockStatement _ => "BlockStatement"
  | .emptyStatement => "EmptyStatement"
  | .expressionStatement _ => "ExpressionStatement"
  | .variableDeclarator _ _ => "VariableDeclarator"
  | .variableDeclaration _ _ => "VariableDeclaration"
  | .ifStatement _ _ _ => "IfStatement"
  | .switchStatement _ _ => "SwitchStatement"
  | .switchCase _ _ => "SwitchCase"
  | .forStatement _ _ _ _ => "ForStatement"
  | .whileStatement _ _ => "WhileStatement"
  | .doWhileStatement _ _ => "DoWhileStatement"
  | .tryStatement _ _ _ => "TryStatement"
  | .catchClause _ _ => "CatchClause"
  | .withStatement _ _ => "WithStatement"
  | .debuggerStatement => "DebuggerStatement"
  | .labeledStatement _ _ => "LabeledStatement"
  | .returnStatement _ => "ReturnStatement"
  | .breakStatement => "BreakStatement"
  | .continueStatement => "ContinueStatement"
  | .functionDeclaration _ _ _ _ _ => "FunctionDeclaration"

/-- types.ts lines 453-457: PATTERN_TYPES. -/
def PATTERN_TYPES : List String :=
  ["Identifier", "ObjectPattern", "ArrayPattern", "RestElement",
   "AssignmentPattern"]

/-- types.ts lines 458-461: isPattern. -/
def isPattern (node : Node) : Bool := PATTERN_TYPES.contains node.type

/-- `node.extra && node.extra.trailingComma` as a boolean. -/
def hasTrailingComma (node : Node) : Bool :=
  match node.extra with
  | some ex => ex.trailingComma = some true
  | none => false

/-- Replacing a node's `extra` record (the rewriter's
`pattern.extra = expression.extra` assignments). -/
def Node.withExtra : Node → Option NodeExtra → Node
  | .mk k _, e => .mk k e

/-! ### The AST builders of types.ts (namespace `t`, as imported by the
parser).  Every builder creates a node without `extra`. -/

namespace t

def program (body : List Node) : Node := .mk (.program body) none
def identifier (name : String) : Node := .mk (.identifier name) none
def numericLiteral (value : Int) : Node := .mk (.numericLiteral value) none
def booleanLiteral (value : Bool) : Node := .mk (.booleanLiteral value) none
def stringLiteral (value : String) : Node := .mk (.stringLiteral value) none
def templateLiteral (value : String) : Node := .mk (.templateLiteral value) none
def nullLiteral : Node := .mk .nullLiteral none
def thisExpression : Node := .mk .thisExpression none
def superExpression : Node := .mk .superExpression none
def yieldExpression (argument : Option Node) (delegate : Bool) : Node :=
  .mk (.yieldExpression argument delegate) none
def awaitExpression (argument : Node) : Node := .mk (.awaitExpression argument) none
def assignmentExpression (operator : String) (left : Node) (right : Node) : Node :=
  .mk (.assignmentExpression operator left right) none
def unaryExpression (operator : String) (argument : Node) : Node :=
  .mk (.unaryExpression operator argument) none
def updateExpression (operator : String) (argument : Node) (prefixed : Bool) : Node :=
  .mk (.updateExpression operator argument prefixed) none
def binaryExpression (operator : String) (left : Node) (right : Node) : Node :=
  .mk (.binaryExpression operator left right) none
def logicalExpression (operator : String) (left : Node) (right : Node) : Node :=
  .mk (.logicalExpression operator left right) none
def sequenceExpression (expressions : List Node) : Node :=
  .mk (.sequenceExpression expressions) none
def memberExpression (object : Node) (property : Node) (computed : Bool) : Node :=
  .mk (.memberExpression object property computed) none
def callExpression (callee : Node) (args : List Node) : Node :=
  .mk (.callExpression callee args) none
def newExpression (callee : Node) (args : List Node) : Node :=
  .mk (.newExpression callee args) none
def conditionalExpression (test : Node) (consequent : Node) (alternate : Node) : Node :=
  .mk (.conditionalExpression test consequent alternate) none
def functionExpression (id : Option Node) (params : List Node) (body : Node)
    (generator : Bool := false) (async : Bool := false) : Node :=
  .mk (.functionExpression id params body generator async) none
def arrowFunctionExpression (params : List Node) (body : Node)
    (async : Bool := false) : Node :=
  .mk (.arrowFunctionExpression none params body false async) none
def arrayExpression (elements : List (Option Node)) : Node :=
  .mk (.arrayExpression elements) none
def objectExpression (properties : List Node) : Node :=
  .mk (.objectExpression properties) none
def doExpression (body : Node) (async : Bool) : Node := .mk (.doExpression body async) none
def objectPattern (properties : List Node) : Node := .mk (.objectPattern properties) none
def arrayPattern (elements : List (Option Node)) : Node := .mk (.arrayPattern elements) none
def restElement (argument : Node) : Node := .mk (.restElement argument) none
def assignmentPattern (left : Node) (right : Node) : Node :=
  .mk (.assignmentPattern left right) none
def spreadElement (argument : Node) : Node := .mk (.spreadElement argument) none
def objectProperty (key : Node) (value : Node) (computed : Bool := false)
    (shorthand : Bool := false) : Node :=
  .mk (.objectProperty key value computed shorthand) none
def objectMethod (kind : String) (key : Node) (params : List Node) (body : Node)
    (generator : Bool := false) (async : Bool := false) (computed : Bool := false) : Node :=
  .mk (.objectMethod kind key none params body generator async computed) none
def blockStatement (body : List Node) : Node := .mk (.blockStatement body) none
def emptyStatement : Node := .mk .emptyStatement none
def expressionStatement (expression : Node) : Node :=
  .mk (.expressionStatement expression) none
def variableDeclarator (id : Node) (init : Node) : Node :=
  .mk (.variableDeclarator id init) none
def variableDeclaration (kind : String) (declarators : List Node) : Node :=
  .mk (.variableDeclaration kind declarators) none
def ifStatement (test : Node) (consequent : Node) (alternate : Option Node := none) : Node :=
  .mk (.ifStatement test consequent alternate) none
def switchStatement (discriminant : Node) (cases : List Node) : Node :=
  .mk (.switchStatement discriminant cases) none
def switchCase (test : Option Node) (consequent : List Node) : Node :=
  .mk (.switchCase test consequent) none
def forStatement (init : Option Node) (test : Option Node) (update : Option Node)
    (body : Node) : Node :=
  .mk (.forStatement init test update body) none
def whileStatement (test : Node) (body : Node) : Node := .mk (.whileStatement test body) none
def doWhileStatement (body : Node) (test : Node) : Node :=
  .mk (.doWhileStatement body test) none
def tryStatement (block : Node) (handler : Option Node) (finalizer : Option Node) : Node :=
  .mk (.tryStatement block handler finalizer) none
def catchClause (param : Option Node) (body : Node) : Node :=
  .mk (.catchClause param body) none
def withStatement (object : Node) (body : Node) : Node := .mk (.withStatement object body) none
def debuggerStatement : Node := .mk .debuggerStatement none
def labeledStatement (label : Node) (body : Node) : Node :=
  .mk (.labeledStatement label body) none
def returnStatement (argument : Option Node) : Node := .mk (.returnStatement argument) none
def breakStatement : Node := .mk .breakStatement none
def continueStatement : Node := .mk .continueStatement none
def functionDeclaration (id : Node) (params : List Node) (body : Node)
    (generator : Bool := false) (async : Bool := false) : Node :=
  .mk (.functionDeclaration id params body generator async) none

end t

/-! ## The expression-to-pattern rewriter (parser.ts lines 1424-1573).
The methods are pure apart from the raised SyntaxError, so they are
modelled outside the parser monad.  Where the source passes the whole node
and destructures it, the helper here receives the node's fields (the
source mutates in place; the embedding rebuilds the node, carrying the
`extra` record across exactly as the source's assignments do). -/

theorem Node.sizeOf_pos (n : Node) : 0 < sizeOf n := by
  cases n
  simp

mutual

/-- parser.ts lines 1424-1441: expressionToPattern.  The bodies of the
helper methods it dispatches to (assignmentExpressionToPattern,
arrayExpressionToPattern, objectExpressionToPattern,
spreadElementToPattern) are written in the corresponding match arms so the
recursion is structural; each helper is also defined below as a standalone
function, equal to its arm by definition (see the bridge lemmas after the
block). -/
def expressionToPattern (expression : Node) : Except JsError Node :=
  if isPattern expression then .ok expression
  else
    match expression with
    | .mk (.assignmentExpression operator left right) extra =>
      -- parser.ts lines 1448-1461: assignmentExpressionToPattern
      if operator ≠ "=" then
        .error (.syntaxError ("Invalid assignment pattern operator " ++ operator ++ ", expected ="))
      else do
        let l ← if isPattern left then pure left else expressionToPattern left
        pure ((t.assignmentPattern l right).withExtra extra)
    | .mk (.arrayExpression elements) extra => do
      -- parser.ts lines 1468-1487: arrayExpressionToPattern
      let els ← arrayElementsToPatterns elements
      pure ((t.arrayPattern els).withExtra extra)
    | .mk (.objectExpression properties) extra => do
      -- parser.ts lines 1511-1530: objectExpressionToPattern
      let props ← objectMembersToPatterns properties
      pure ((t.objectPattern props).withExtra extra)
    | .mk (.spreadElement argument) extra => do
      -- parser.ts lines 1566-1573: spreadElementToPattern
      let pattern ← expressionToPattern argument
      pure ((t.restElement pattern).withExtra extra)
    | _ => .error (.syntaxError ("Invalid pattern " ++ expression.type))

/-- The element loop of arrayExpressionToPattern (parser.ts lines
1471-1482), with arrayElementToPattern (lines 1494-1504) in the match; the
index comparison `i < elements.length - 1` is `rest ≠ []` here. -/
def arrayElementsToPatterns : List (Option Node) → Except JsError (List (Option Node))
  | [] => .ok []
  | element :: rest => do
    let pattern ←
      match element with
      | none => .ok (none : Option Node) -- a null hole remains null
      | some (.mk (.spreadElement argument) extra) => do
        let p ← expressionToPattern argument
        pure (some ((t.restElement p).withExtra extra))
      | some el => (expressionToPattern el).map some
    match pattern with
    | some p =>
      if p.type = "RestElement" ∧ rest.length ≠ 0 then
        .error (.syntaxError "A rest element must be last in a destructuring pattern")
      else if p.type = "RestElement" ∧ hasTrailingComma p then
        .error (.syntaxError "A rest element in a destructuring pattern cannot have a trailing comma")
      else do
        let rest2 ← arrayElementsToPatterns rest
        pure (pattern :: rest2)
    | none => do
      let rest2 ← arrayElementsToPatterns rest
      pure (pattern :: rest2)

/-- The member loop of objectExpressionToPattern (parser.ts lines
1514-1525), with objectMemberToPattern (lines 1537-1547) and
objectPropertyToPattern (lines 1554-1559) in the match. -/
def objectMembersToPatterns : List Node → Except JsError (List Node)
  | [] => .ok []
  | member :: rest => do
    let pattern ←
      match member with
      | .mk (.spreadElement argument) extra => do
        let p ← expressionToPattern argument
        pure ((t.restElement p).withExtra extra)
      | .mk (.objectProperty key value computed shorthand) extra => do
        -- the source repurposes the property, rewriting its value child
        let v ← expressionToPattern value
        pure (Node.mk (.objectProperty key v computed shorthand) extra)
      | m => .error (.syntaxError ("Invalid object member pattern type " ++ m.type))
    if pattern.type = "RestElement" ∧ rest.length ≠ 0 then
      .error (.syntaxError "A rest element must be last in a destructuring pattern")
    else if pattern.type = "RestElement" ∧ hasTrailingComma pattern then
      .error (.syntaxError "A rest element in a destructuring pattern cannot have a trailing comma")
    else do
      let rest2 ← objectMembersToPatterns rest
      pure (pattern :: rest2)

end

/-- parser.ts lines 1566-1573: spreadElementToPattern as a standalone
function, applied to the fields of the spread element. -/
def spreadElementToPattern (argument : Node) (extra : Option NodeExtra) :
    Except JsError Node := do
  let pattern ← expressionToPattern argument
  pure ((t.restElement pattern).withExtra extra)

/-- parser.ts lines 1448-1461: assignmentExpressionToPattern as a
standalone function, applied to the fields of the assignment
expression. -/
def assignmentExpressionToPattern (operator : String) (left right : Node)
    (extra : Option NodeExtra) : Except JsError Node :=
  if operator ≠ "=" then
    .error (.syntaxError ("Invalid assignment pattern operator " ++ operator ++ ", expected ="))
  else do
    let l ← if isPattern left then pure left else expressionToPattern left
    pure ((t.assignmentPattern l right).withExtra extra)

/-- parser.ts lines 1468-1487: arrayExpressionToPattern as a standalone
function. -/
def arrayExpressionToPattern (elements : List (Option Node))
    (extra : Option NodeExtra) : Except JsError Node := do
  let els ← arrayElementsToPatterns elements
  pure ((t.arrayPattern els).withExtra extra)

/-- parser.ts lines 1511-1530: objectExpressionToPattern as a standalone
function. -/
def objectExpressionToPattern (properties : List Node)
    (extra : Option NodeExtra) : Except JsError Node := do
  let props ← objectMembersToPatterns properties
  pure ((t.objectPattern props).withExtra extra)

/-- The assignment-expression arm of expressionToPattern is
assignmentExpressionToPattern. -/
theorem expressionToPattern_assignment (op : String) (l r : Node) (x : Option NodeExtra) :
    expressionToPattern (.mk (.assignmentExpression op l r) x) =
      assignmentExpressionToPattern op l r x := rfl

/-- The array-expression arm of expressionToPattern is
arrayExpressionToPattern. -/
theorem expressionToPattern_array (els : List (Option Node)) (x : Option NodeExtra) :
    expressionToPattern (.mk (.arrayExpression els) x) =
      arrayExpressionToPattern els x := rfl

/-- The object-expression arm of expressionToPattern is
objectExpressionToPattern. -/
theorem expressionToPattern_object (props : List Node) (x : Option NodeExtra) :
    expressionToPattern (.mk (.objectExpression props) x) =
      objectExpressionToPattern props x := rfl

/-- The spread-element arm of expressionToPattern is
spreadElementToPattern. -/
theorem expressionToPattern_spread (a : Node) (x : Option NodeExtra) :
    expressionToPattern (.mk (.spreadElement a) x) =
      spreadElementToPattern a x := rfl

/-! ## The parser (src/src/parser/parser.ts). -/

/-- parser.ts: ParserOptions; both options default to false (JS undefined
is falsy). -/
structure ParserOptions where
  emitLogs : Bool := false
  omitLocations : Bool := false
deriving DecidableEq, Repr

/-- The Parser object: the read-only fields (input, tokens, options) and
the mutable fields (position, nodeStartPositions, warnings) in one record.
The node-start stack is a JS array pushed/popped at its end; here the list
head is the stack top. -/
structure PState where
  input : List Char
  tokens : List Token
  options : ParserOptions
  position : Nat
  nodeStartPositions : List SourcePosition
  warnings : List String

/-- The parser computations: state plus thrown errors. -/
def PM (α : Type) : Type := PState → Except JsError (α × PState)

instance : Monad PM where
  pure a := fun s => .ok (a, s)
  bind x f := fun s =>
    match x s with
    | .ok (a, s2) => f a s2
    | .error e => .error e

def pthrow {α : Type} (e : JsError) : PM α := fun _ => .error e

def getS : PM PState := fun s => .ok (s, s)

def setS (s : PState) : PM Unit := fun _ => .ok ((), s)

def modifyS (f : PState → PState) : PM Unit := fun s => .ok ((), f s)

/-- Runs a pure `Except` computation (the rewriter) inside the parser. -/
def pmOfExcept {α : Type} : Except JsError α → PM α
  | .ok a => pure a
  | .error e => pthrow e

/-- JS array indexing `tokens[i]`: `undefined` below zero or past the
end. -/
def jsIndex (l : List Token) (i : Int) : Option Token :=
  if i < 0 then none else l.get? i.toNat

/-- Dereferencing a possibly-undefined token (property access in JS):
`undefined` raises a TypeError naming the property read. -/
def jsGet (prop : String) : Option Token → PM Token
  | some token => pure token
  | none => pthrow (.typeError ("Cannot read properties of undefined (reading '" ++ prop ++ "')"))

/-- JS `String.prototype.slice` on the input characters. -/
def jsSlice (l : List Char) (a b : Int) : List Char :=
  let n : Int := l.length
  let a2 := if a < 0 then max (n + a) 0 else min a n
  let b2 := if b < 0 then max (n + b) 0 else min b n
  if a2 < b2 then (l.drop a2.toNat).take (b2 - a2).toNat else []

/-- An `expect`ed kind: parser.ts `TokenType | Set<TokenType>`. -/
inductive TokenTypeReq where
  | one (t : TokenType)
  | set (ts : List TokenType)

/-- Whether a token type satisfies the requirement (`!=` resp. `!has`). -/
def TokenTypeReq.allows : TokenTypeReq → TokenType → Bool
  | .one t, ty => decide (ty = t)
  | .set ts, ty => decide (ty ∈ ts)

namespace Parser

/-- parser.ts lines 54-56: advance, returning the previous position. -/
def advance : PM Nat := fun s =>
  .ok (s.position, { s with position := s.position + 1 })

/-- parser.ts lines 138-146: peekToken.  An offset past the end throws
"Unexpected EOF"; the negative index `tokens[-1]` is JS `undefined`. -/
def peekToken (offset : Int) : PM (Option Token) := do
  let s ← getS
  if (s.position : Int) + offset ≥ (s.tokens.length : Int) then
    pthrow (.syntaxError "Unexpected EOF")
  else
    pure (if s.position < s.tokens.length
          then jsIndex s.tokens ((s.position : Int) + offset)
          else jsIndex s.tokens ((s.tokens.length : Int) - 1))

/-- parser.ts lines 155-175: unexpectedTokenErrorMessage.  The source-line
caret diagnostic goes to the console, which is out of scope; only the
returned message is modelled. -/
def unexpectedTokenErrorMessage (token : Token) (expectedType : Option TokenTypeReq) : String :=
  match expectedType with
  | some (.one t) => "Unexpected token " ++ token.value ++ ", expected " ++ t.name
  | some (.set ts) =>
    "Unexpected token " ++ token.value ++ ", expected "
      ++ String.intercalate ", " (ts.map TokenType.name)
  | none => "Unexpected token " ++ token.value

/-- parser.ts lines 118-130: getNextToken, optionally checking the
required type. -/
def getNextToken (requiredType : Option TokenTypeReq) : PM Token := do
  let s ← getS
  let tok? ←
    if s.position < s.tokens.length then do
      let i ← advance
      pure (jsIndex s.tokens (i : Int))
    else
      pure (jsIndex s.tokens ((s.tokens.length : Int) - 1)) -- EOF token
  let token ← jsGet "type" tok?
  match requiredType with
  | some req =>
    if !(req.allows token.type) then
      pthrow (.syntaxError (unexpectedTokenErrorMessage token (some req)))
    else pure token
  | none => pure token

/-- parser.ts lines 204-206: match (called matchToken, `match` being a
Lean keyword). -/
def matchToken (type : TokenType) (offset : Int) : PM Bool := do
  let token ← jsGet "type" (← peekToken offset)
  pure (decide (token.type = type))

/-- parser.ts lines 234-243: isLineBreak. -/
def isLineBreak : PM Bool := do
  let s ← getS
  if s.tokens.length = 0 then pure false
  else do
    let lastToken ← jsGet "location" (← peekToken (-1))
    let currentToken ← jsGet "location" (← peekToken 0)
    let str := jsSlice s.input (lastToken.location.endPos.position + 1)
      currentToken.location.start.position
    pure (str.any (fun c => c = '\n' ∨ c = '\r'))

/-- parser.ts lines 211-218: expectBreak (`&&` short-circuit kept). -/
def expectBreak : PM Unit := do
  if (← matchToken tt.SemiColon 0) then do
    let _ ← advance
    pure ()
  else if (← matchToken tt.RightBrace 0) then pure ()
  else if (← matchToken tt.EOF 0) then pure ()
  else if (← isLineBreak) then pure ()
  else do
    let token ← jsGet "value" (← peekToken 0)
    pthrow (.syntaxError (unexpectedTokenErrorMessage token none))

/-- parser.ts lines 224-227: isBreak (`||` short-circuit kept). -/
def isBreak : PM Bool := do
  if (← matchToken tt.SemiColon 0) then pure true
  else if (← matchToken tt.RightBrace 0) then pure true
  else if (← matchToken tt.EOF 0) then pure true
  else isLineBreak

/-- parser.ts lines 248-254: expectSemiColon. -/
def expectSemiColon : PM Unit := do
  if (← matchToken tt.SemiColon 0) then do
    let _ ← advance
    pure ()
  else do
    let token ← jsGet "value" (← peekToken 0)
    pthrow (.syntaxError (unexpectedTokenErrorMessage token (some (.one tt.SemiColon))))

/-- parser.ts lines 105-110: addExtra with key 'location'. -/
def addExtraLocation (node : Node) (value : SourceLocation) : Node :=
  match node with
  | .mk k e => .mk k (some { (e.getD {}) with location := some value })

/-- parser.ts lines 105-110: addExtra with key 'trailingComma' (the value
is always `true` at the call sites).  In JS the pushed node is mutated
after the push; rebuilding it before it is appended is equivalent. -/
def addExtraTrailingComma (node : Node) : Node :=
  match node with
  | .mk k e => .mk k (some { (e.getD {}) with trailingComma := some true })

/-- parser.ts lines 61-76: startNode. -/
def startNode (existingNode : Option Node) : PM Unit := do
  let s ← getS
  if s.options.omitLocations then pure ()
  else
    match existingNode with
    | some n =>
      match n.extra with
      | some ex =>
        match ex.location with
        | some loc =>
          modifyS (fun s2 => { s2 with nodeStartPositions := loc.start :: s2.nodeStartPositions })
        | none => pthrow (.error "Expected existing node to have location")
      | none => pthrow (.error "Expected existing node to have location")
    | none => do
      let token ← jsGet "location" (← peekToken 0)
      modifyS (fun s2 => { s2 with nodeStartPositions := token.location.start :: s2.nodeStartPositions })

/-- parser.ts lines 83-97: finishNode.  The emitLogs console line is out
of scope.  `peekToken(-1)` is `undefined` at position 0, and the JS code
then dereferences `lastToken.location`. -/
def finishNode (node : Node) : PM Node := do
  let s ← getS
  if s.options.omitLocations then pure node
  else do
    let lastToken? ← peekToken (-1)
    if s.nodeStartPositions.length > 0 then
      match lastToken? with
      | none => pthrow (.typeError "Cannot read properties of undefined (reading 'location')")
      | some lastToken =>
        match s.nodeStartPositions with
        | start :: rest => do
          setS { s with nodeStartPositions := rest }
          pure (addExtraLocation node { start := start, endPos := lastToken.location.endPos })
        | [] => pure node
    else pure node

end Parser

/-- JS `parseInt` on the digit-run value of a number token (base 10). -/
def parseIntJs (s : String) : Int :=
  (s.data.takeWhile isRegexDigit).foldl (fun acc c => acc * 10 + ((c.toNat : Int) - 48)) 0

/-- parser.ts: the four expression-context flags, all defaulting to
true. -/
structure ParseExpressionParams where
  canBeGrouped : Bool := true
  canBeSequence : Bool := true
  canBeAssignment : Bool := true
  canBeCall : Bool := true

namespace Parser

mutual

/-- parser.ts lines 33-48: parse. -/
def parse : Nat → PM Node
  | 0 => pthrow .outOfFuel
  | fuel + 1 => do
    startNode none
    let statements ← parseTopStatements fuel
    let program ← finishNode (t.program statements)
    let s ← getS
    if s.nodeStartPositions.length > 0 then
      modifyS (fun s2 => { s2 with warnings :=
        s2.warnings ++ ["Leftover start positions, node locations may be misaligned"] })
    else pure ()
    pure program

/-- The statement loop of parse: while position is in range and the next
token is not eof. -/
def parseTopStatements : Nat → PM (List Node)
  | 0 => pthrow .outOfFuel
  | fuel + 1 => do
    let s ← getS
    if s.position < s.tokens.length then
      if !(← matchToken tt.EOF 0) then do
        let statement ← parseStatement fuel
        let rest ← parseTopStatements fuel
        pure (statement :: rest)
      else pure []
    else pure []

/-- parser.ts lines 260-307: parseStatement. -/
def parseStatement : Nat → PM Node
  | 0 => pthrow .outOfFuel
  | fuel + 1 => do
    let token ← jsGet "type" (← peekToken 0)
    if decide (token.type ∈ variableDeclarationKindTokens) then
      parseVariableDeclaration fuel
    else if token.type = tt.LeftBrace then parseBlockStatement fuel
    else if token.type = tt.Function ∨ token.type = tt.Async then parseFunction fuel true
    else if token.type = tt.If then parseIfStatement fuel
    else if token.type = tt.Switch then parseSwitchStatement fuel
    else if token.type = tt.For then parseForStatement fuel
    else if token.type = tt.While then parseWhileStatement fuel
    else if token.type = tt.Do then parseDoWhileStatement fuel
    else if token.type = tt.Try then parseTryStatement fuel
    else if token.type = tt.With then parseWithStatement fuel
    else if token.type = tt.Debugger then parseDebuggerStatement fuel
    else if token.type = tt.Break then parseBreakStatement fuel
    else if token.type = tt.Continue then parseContinueStatement fuel
    else if token.type = tt.Return then parseReturnStatement fuel
    else if token.type = tt.SemiColon then parseEmptyStatement fuel
    else if token.type = tt.Identifier then
      if (← matchToken tt.Colon 1) then parseLabeledStatement fuel
      else parseExpressionStatement fuel
    else parseExpressionStatement fuel

/-- parser.ts lines 313-330: parseVariableDeclaration. -/
def parseVariableDeclaration : Nat → PM Node
  | 0 => pthrow .outOfFuel
  | fuel + 1 => do
    startNode none
    let kindToken ← getNextToken (some (.set variableDeclarationKindTokens))
    let declarators ← parseVariableDeclarators fuel
    expectBreak
    finishNode (t.variableDeclaration kindToken.value declarators)

/-- The declarator loop of parseVariableDeclaration. -/
def parseVariableDeclarators : Nat → PM (List Node)
  | 0 => pthrow .outOfFuel
  | fuel + 1 => do
    let declarator ← parseVariableDeclarator fuel
    if (← matchToken tt.Comma 0) then do
      let _ ← advance
      let rest ← parseVariableDeclarators fuel
      pure (declarator :: rest)
    else pure [declarator]

/-- parser.ts lines 336-345: parseVariableDeclarator. -/
def parseVariableDeclarator : Nat → PM Node
  | 0 => pthrow .outOfFuel
  | fuel + 1 => do
    startNode none
    let pattern ← parsePattern fuel false
    let _ ← getNextToken (some (.one tt.Assignment))
    let expression ← parseExpression fuel { canBeSequence := false }
    finishNode (t.variableDeclarator pattern expression)

/-- parser.ts lines 352-382: parseFunction. -/
def parseFunction : Nat → Bool → PM Node
  | 0, _ => pthrow .outOfFuel
  | fuel + 1, isDeclaration => do
    startNode none
    let async ←
      if (← matchToken tt.Async 0) then do
        let _ ← advance
        pure true
      else pure false
    let _ ← getNextToken (some (.one tt.Function))
    let generator ←
      if (← matchToken tt.Multiply 0) then do
        let _ ← advance
        pure true
      else pure false
    let identifier ←
      if (← matchToken tt.LeftParenthesis 0) then pure (none : Option Node)
      else do
        let id ← parseIdentifier fuel
        pure (some id)
    match identifier with
    | none =>
      if isDeclaration then
        pthrow (.syntaxError "Function statements require a function name")
      else do
        let params ← parseFunctionParams fuel
        let body ← parseBlockStatement fuel
        finishNode (t.functionExpression none params body generator async)
    | some id => do
      let params ← parseFunctionParams fuel
      let body ← parseBlockStatement fuel
      let func :=
        if isDeclaration then t.functionDeclaration id params body generator async
        else t.functionExpression (some id) params body generator async
      finishNode func

/-- parser.ts lines 388-414: parseFunctionParams. -/
def parseFunctionParams : Nat → PM (List Node)
  | 0 => pthrow .outOfFuel
  | fuel + 1 => do
    let _ ← getNextToken (some (.one tt.LeftParenthesis))
    let params ← parseFunctionParamsLoop fuel
    let _ ← getNextToken (some (.one tt.RightParenthesis))
    pure params

/-- The parameter loop of parseFunctionParams, with its two rest-element
checks. -/
def parseFunctionParamsLoop : Nat → PM (List Node)
  | 0 => pthrow .outOfFuel
  | fuel + 1 => do
    if !(← matchToken tt.RightParenthesis 0) then do
      let pattern ← parsePattern fuel true
      if (← matchToken tt.Comma 0) then do
        let _ ← advance
        if (← matchToken tt.RightParenthesis 0) then
          if pattern.type = "RestElement" then
            pthrow (.syntaxError "A rest element must be last in a parameter list")
          else do
            let pattern := addExtraTrailingComma pattern
            let rest ← parseFunctionParamsLoop fuel
            pure (pattern :: rest)
        else
          if pattern.type = "RestElement" then
            pthrow (.syntaxError "A rest element in a parameter list cannot have a trailing comma")
          else do
            let rest ← parseFunctionParamsLoop fuel
            pure (pattern :: rest)
      else pure [pattern]
    else pure []

/-- parser.ts lines 420-432: parseBlockStatement. -/
def parseBlockStatement : Nat → PM Node
  | 0 => pthrow .outOfFuel
  | fuel + 1 => do
    startNode none
    let _ ← getNextToken (some (.one tt.LeftBrace))
    let statements ← parseBlockBody fuel
    let _ ← getNextToken (some (.one tt.RightBrace))
    finishNode (t.blockStatement statements)

/-- The statement loop of parseBlockStatement. -/
def parseBlockBody : Nat → PM (List Node)
  | 0 => pthrow .outOfFuel
  | fuel + 1 => do
    if !(← matchToken tt.RightBrace 0) then do
      let statement ← parseStatement fuel
      let rest ← parseBlockBody fuel
      pure (statement :: rest)
    else pure []

/-- parser.ts lines 438-456: parseIfStatement. -/
def parseIfStatement : Nat → PM Node
  | 0 => pthrow .outOfFuel
  | fuel + 1 => do
    startNode none
    let _ ← getNextToken (some (.one tt.If))
    let _ ← getNextToken (some (.one tt.LeftParenthesis))
    let test ← parseExpression fuel {}
    let _ ← getNextToken (some (.one tt.RightParenthesis))
    let consequent ← parseStatement fuel
    let alternate ←
      if (← matchToken tt.Else 0) then do
        let _ ← getNextToken (some (.one tt.Else))
        let a ← parseStatement fuel
        pure (some a)
      else pure none
    finishNode (t.ifStatement test consequent alternate)

/-- parser.ts lines 462-480: parseSwitchStatement. -/
def parseSwitchStatement : Nat → PM Node
  | 0 => pthrow .outOfFuel
  | fuel + 1 => do
    startNode none
    let _ ← getNextToken (some (.one tt.Switch))
    let _ ← getNextToken (some (.one tt.LeftParenthesis))
    let discriminant ← parseExpression fuel {}
    let _ ← getNextToken (some (.one tt.RightParenthesis))
    let _ ← getNextToken (some (.one tt.LeftBrace))
    let cases ← parseSwitchCases fuel
    let _ ← getNextToken (some (.one tt.RightBrace))
    finishNode (t.switchStatement discriminant cases)

/-- The case loop of parseSwitchStatement: while the next token is not
the closing brace. -/
def parseSwitchCases : Nat → PM (List Node)
  | 0 => pthrow .outOfFuel
  | fuel + 1 => do
    if !(← matchToken tt.RightBrace 0) then do
      let c ← parseSwitchCase fuel
      let rest ← parseSwitchCases fuel
      pure (c :: rest)
    else pure []

/-- parser.ts lines 486-504: parseSwitchCase. -/
def parseSwitchCase : Nat → PM Node
  | 0 => pthrow .outOfFuel
  | fuel + 1 => do
    startNode none
    let test ←
      if (← matchToken tt.Default 0) then do
        let _ ← advance
        pure (none : Option Node)
      else do
        let _ ← getNextToken (some (.one tt.Case))
        let e ← parseExpression fuel {}
        pure (some e)
    let _ ← getNextToken (some (.one tt.Colon))
    let first ← parseStatement fuel
    let rest ← parseSwitchCaseConsequent fuel
    finishNode (t.switchCase test (first :: rest))

/-- The consequent loop of parseSwitchCase, with the source's condition
verbatim: `!match(case) && !match(default) && match(rightBrace)` (the last
conjunct is not negated in parser.ts line 499). -/
def parseSwitchCaseConsequent : Nat → PM (List Node)
  | 0 => pthrow .outOfFuel
  | fuel + 1 => do
    if !(← matchToken tt.Case 0) then
      if !(← matchToken tt.Default 0) then
        if (← matchToken tt.RightBrace 0) then do
          let statement ← parseStatement fuel
          let rest ← parseSwitchCaseConsequent fuel
          pure (statement :: rest)
        else pure []
      else pure []
    else pure []

/-- parser.ts lines 510-545: parseForStatement. -/
def parseForStatement : Nat → PM Node
  | 0 => pthrow .outOfFuel
  | fuel + 1 => do
    startNode none
    let _ ← getNextToken (some (.one tt.For))
    let _ ← getNextToken (some (.one tt.LeftParenthesis))
    let init ←
      if (← matchToken tt.SemiColon 0) then do
        let _ ← advance
        pure (none : Option Node)
      else if (← matchToken tt.Var 0) then do
        let d ← parseVariableDeclaration fuel
        pure (some d)
      else do
        let e ← parseExpression fuel {}
        expectSemiColon
        pure (some e)
    let test ←
      if (← matchToken tt.SemiColon 0) then pure (none : Option Node)
      else do
        let e ← parseExpression fuel {}
        pure (some e)
    expectSemiColon
    let update ←
      if (← matchToken tt.RightParenthesis 0) then pure (none : Option Node)
      else do
        let e ← parseExpression fuel {}
        pure (some e)
    let _ ← getNextToken (some (.one tt.RightParenthesis))
    let body ← parseStatement fuel
    finishNode (t.forStatement init test update body)

/-- parser.ts lines 551-562: parseWhileStatement. -/
def parseWhileStatement : Nat → PM Node
  | 0 => pthrow .outOfFuel
  | fuel + 1 => do
    startNode none
    let _ ← getNextToken (some (.one tt.While))
    let _ ← getNextToken (some (.one tt.LeftParenthesis))
    let test ← parseExpression fuel {}
    let _ ← getNextToken (some (.one tt.RightParenthesis))
    let body ← parseStatement fuel
    finishNode (t.whileStatement test body)

/-- parser.ts lines 568-582: parseDoWhileStatement. -/
def parseDoWhileStatement : Nat → PM Node
  | 0 => pthrow .outOfFuel
  | fuel + 1 => do
    startNode none
    let _ ← getNextToken (some (.one tt.Do))
    let body ← parseStatement fuel
    let _ ← getNextToken (some (.one tt.While))
    let _ ← getNextToken (some (.one tt.LeftParenthesis))
    let test ← parseExpression fuel {}
    let _ ← getNextToken (some (.one tt.RightParenthesis))
    finishNode (t.doWhileStatement body test)

/-- parser.ts lines 588-609: parseTryStatement. -/
def parseTryStatement : Nat → PM Node
  | 0 => pthrow .outOfFuel
  | fuel + 1 => do
    startNode none
    let _ ← getNextToken (some (.one tt.Try))
    let block ← parseBlockStatement fuel
    let handler ←
      if (← matchToken tt.Catch 0) then do
        let h ← parseCatchClause fuel
        pure (some h)
      else pure (none : Option Node)
    let finalizer ←
      if (← matchToken tt.Finally 0) then do
        let _ ← advance
        let f ← parseBlockStatement fuel
        pure (some f)
      else pure (none : Option Node)
    if handler.isNone ∧ finalizer.isNone then
      pthrow (.syntaxError "Missing catch or finally after try")
    else
      finishNode (t.tryStatement block handler finalizer)

/-- parser.ts lines 615-629: parseCatchClause. -/
def parseCatchClause : Nat → PM Node
  | 0 => pthrow .outOfFuel
  | fuel + 1 => do
    startNode none
    let _ ← getNextToken (some (.one tt.Catch))
    let param ←
      if (← matchToken tt.LeftParenthesis 0) then do
        let _ ← advance
        let p ← parseIdentifier fuel
        let _ ← getNextToken (some (.one tt.RightParenthesis))
        pure (some p)
      else pure (none : Option Node)
    let body ← parseBlockStatement fuel
    finishNode (t.catchClause param body)

/-- parser.ts lines 635-646: parseWithStatement. -/
def parseWithStatement : Nat → PM Node
  | 0 => pthrow .outOfFuel
  | fuel + 1 => do
    startNode none
    let _ ← getNextToken (some (.one tt.With))
    let _ ← getNextToken (some (.one tt.LeftParenthesis))
    let expression ← parseExpression fuel {}
    let _ ← getNextToken (some (.one tt.RightParenthesis))
    let body ← parseStatement fuel
    finishNode (t.withStatement expression body)

/-- parser.ts lines 652-657: parseDebuggerStatement. -/
def parseDebuggerStatement : Nat → PM Node
  | 0 => pthrow .outOfFuel
  | _fuel + 1 => do
    startNode none
    let _ ← getNextToken (some (.one tt.Debugger))
    expectBreak
    finishNode t.debuggerStatement

/-- parser.ts lines 663-668: parseBreakStatement. -/
def parseBreakStatement : Nat → PM Node
  | 0 => pthrow .outOfFuel
  | _fuel + 1 => do
    startNode none
    let _ ← getNextToken (some (.one tt.Break))
    expectBreak
    finishNode t.breakStatement

/-- parser.ts lines 674-679: parseContinueStatement. -/
def parseContinueStatement : Nat → PM Node
  | 0 => pthrow .outOfFuel
  | _fuel + 1 => do
    startNode none
    let _ ← getNextToken (some (.one tt.Continue))
    expectBreak
    finishNode t.continueStatement

/-- parser.ts lines 685-695: parseReturnStatement. -/
def parseReturnStatement : Nat → PM Node
  | 0 => pthrow .outOfFuel
  | fuel + 1 => do
    startNode none
    let _ ← getNextToken (some (.one tt.Return))
    let expression ←
      if (← isBreak) then pure (none : Option Node)
      else do
        let e ← parseExpression fuel {}
        pure (some e)
    expectBreak
    finishNode (t.returnStatement expression)

/-- parser.ts lines 701-705: parseEmptyStatement. -/
def parseEmptyStatement : Nat → PM Node
  | 0 => pthrow .outOfFuel
  | _fuel + 1 => do
    startNode none
    expectSemiColon
    finishNode t.emptyStatement

/-- parser.ts lines 711-718: parseLabeledStatement. -/
def parseLabeledStatement : Nat → PM Node
  | 0 => pthrow .outOfFuel
  | fuel + 1 => do
    startNode none
    let label ← parseIdentifier fuel
    let _ ← getNextToken (some (.one tt.Colon))
    let statement ← parseStatement fuel
    finishNode (t.labeledStatement label statement)

/-- parser.ts lines 724-729: parseExpressionStatement. -/
def parseExpressionStatement : Nat → PM Node
  | 0 => pthrow .outOfFuel
  | fuel + 1 => do
    startNode none
    let expression ← parseExpression fuel {}
    expectBreak
    finishNode (t.expressionStatement expression)

/-- parser.ts lines 743-758: parseExpression. -/
def parseExpression : Nat → ParseExpressionParams → PM Node
  | 0, _ => pthrow .outOfFuel
  | fuel + 1, params => do
    let expression ← parseExpression2 fuel params
    let nextToken ← jsGet "type" (← peekToken 0)
    if params.canBeSequence ∧ nextToken.type = tt.Comma then do
      let _ ← advance
      parseSequenceExpression fuel expression
    else pure expression

/-- parser.ts lines 772-806: parseExpression2.  The postfix-update branch
does not return and falls through to the grouped-operator check. -/
def parseExpression2 : Nat → ParseExpressionParams → PM Node
  | 0, _ => pthrow .outOfFuel
  | fuel + 1, params => do
    let expression ← parseExpressionInner fuel
    let nextToken ← jsGet "type" (← peekToken 0)
    if params.canBeAssignment ∧ decide (nextToken.type ∈ assignmentOperatorTokens) then
      parseAssignmentExpression fuel expression
    else if decide (nextToken.type ∈ updateOperatorTokens) then do
      let expression ← parsePostfixUpdateExpression fuel expression
      let nextToken ← jsGet "type" (← peekToken 0) -- could also be grouped
      if params.canBeGrouped ∧
          (decide (nextToken.type ∈ binaryOperatorTokens)
            ∨ decide (nextToken.type ∈ logicalOperatorTokens)) then
        parseGroupedExpression fuel expression 0
      else pure expression
    else if nextToken.type = tt.LeftBracket then parseMemberExpression fuel expression true
    else if nextToken.type = tt.Dot then parseMemberExpression fuel expression false
    else if params.canBeCall ∧ nextToken.type = tt.LeftParenthesis then
      parseCallExpression fuel expression
    else if nextToken.type = tt.Question then parseConditionalExpression fuel expression
    else if nextToken.type = tt.Arrow then do
      let arrowParams ←
        match expression with
        | .mk (.sequenceExpression expressions) _ =>
          pmOfExcept (expressions.mapM expressionToPattern)
        | _ => do
          let p ← pmOfExcept (expressionToPattern expression)
          pure [p]
      parseArrowFunctionExpression fuel arrowParams false
    else if params.canBeGrouped ∧
        (decide (nextToken.type ∈ binaryOperatorTokens)
          ∨ decide (nextToken.type ∈ logicalOperatorTokens)) then
      parseGroupedExpression fuel expression 0
    else pure expression

/-- parser.ts lines 813-878: parseExpressionInner. -/
def parseExpressionInner : Nat → PM Node
  | 0 => pthrow .outOfFuel
  | fuel + 1 => do
    let token ← jsGet "type" (← peekToken 0)
    if decide (token.type ∈ unaryOperatorTokens) then parseUnaryExpression fuel
    else if decide (token.type ∈ updateOperatorTokens) then parsePrefixUpdateExpression fuel
    else if token.type = tt.Identifier then parseIdentifier fuel
    else if token.type = tt.Number then parseNumericLiteral fuel
    else if token.type = tt.True ∨ token.type = tt.False then parseBooleanLiteral fuel
    else if token.type = tt.String then parseStringLiteral fuel
    else if token.type = tt.TemplateString then parseTemplateLiteral fuel
    else if token.type = tt.Null then parseNullLiteral fuel
    else if token.type = tt.This then parseThisExpression fuel
    else if token.type = tt.Super then parseSuperExpression fuel
    else if token.type = tt.New then parseNewExpression fuel
    else if token.type = tt.LeftParenthesis then
      if (← matchToken tt.RightParenthesis 1) then do
        let _ ← getNextToken (some (.one tt.LeftParenthesis))
        let _ ← getNextToken (some (.one tt.RightParenthesis))
        parseArrowFunctionExpression fuel [] false
      else parseParenthesisedExpression fuel
    else if token.type = tt.Function then parseFunction fuel false
    else if token.type = tt.LeftBracket then parseArrayExpression fuel
    else if token.type = tt.LeftBrace then parseObjectExpression fuel
    else if token.type = tt.Yield then parseYieldExpression fuel
    else if token.type = tt.Await then parseAwaitExpression fuel
    else if token.type = tt.Async then do
      let nextToken ← jsGet "type" (← peekToken 1)
      if nextToken.type = tt.LeftParenthesis then do
        let _ ← getNextToken (some (.one tt.Async))
        let params ← parseFunctionParams fuel
        parseArrowFunctionExpression fuel params false
      else if nextToken.type = tt.Do then parseDoExpression fuel true
      else parseFunction fuel false
    else if token.type = tt.Do then parseDoExpression fuel false
    else pthrow (.syntaxError (unexpectedTokenErrorMessage token none))

/-- parser.ts lines 884-888: parseIdentifier. -/
def parseIdentifier : Nat → PM Node
  | 0 => pthrow .outOfFuel
  | _fuel + 1 => do
    startNode none
    let token ← getNextToken (some (.one tt.Identifier))
    finishNode (t.identifier token.value)

/-- parser.ts lines 894-901: parseKeywordAsIdentifier. -/
def parseKeywordAsIdentifier : Nat → PM Node
  | 0 => pthrow .outOfFuel
  | _fuel + 1 => do
    startNode none
    let token ← getNextToken none
    if !token.type.isKeyword then
      pthrow (.syntaxError ("Token " ++ token.type.name ++ " is not a keyword"))
    else
      finishNode (t.identifier token.type.name)

/-- parser.ts lines 909-914: parsePattern. -/
def parsePattern : Nat → Bool → PM Node
  | 0, _ => pthrow .outOfFuel
  | fuel + 1, canBeAssignment => do
    let expression ←
      if (← matchToken tt.Ellipsis 0) then parseSpreadElement fuel
      else parseExpression fuel { canBeSequence := false, canBeAssignment := canBeAssignment }
    pmOfExcept (expressionToPattern expression)

/-- parser.ts lines 920-925: parseNumericLiteral. -/
def parseNumericLiteral : Nat → PM Node
  | 0 => pthrow .outOfFuel
  | _fuel + 1 => do
    startNode none
    let token ← getNextToken (some (.one tt.Number))
    let value := parseIntJs token.value
    finishNode (t.numericLiteral value)

/-- parser.ts lines 931-936: parseBooleanLiteral. -/
def parseBooleanLiteral : Nat → PM Node
  | 0 => pthrow .outOfFuel
  | _fuel + 1 => do
    startNode none
    let token ← getNextToken (some (.set booleanValueTokens))
    let value := decide (token.type = tt.True)
    finishNode (t.booleanLiteral value)

/-- parser.ts lines 942-946: parseStringLiteral. -/
def parseStringLiteral : Nat → PM Node
  | 0 => pthrow .outOfFuel
  | _fuel + 1 => do
    startNode none
    let value ← getNextToken (some (.one tt.String))
    finishNode (t.stringLiteral value.value)

/-- parser.ts lines 952-956: parseTemplateLiteral. -/
def parseTemplateLiteral : Nat → PM Node
  | 0 => pthrow .outOfFuel
  | _fuel + 1 => do
    startNode none
    let value ← getNextToken (some (.one tt.TemplateString))
    finishNode (t.templateLiteral value.value)

/-- parser.ts lines 962-966: parseNullLiteral. -/
def parseNullLiteral : Nat → PM Node
  | 0 => pthrow .outOfFuel
  | _fuel + 1 => do
    startNode none
    let _ ← getNextToken (some (.one tt.Null))
    finishNode t.nullLiteral

/-- parser.ts lines 972-976: parseThisExpression. -/
def parseThisExpression : Nat → PM Node
  | 0 => pthrow .outOfFuel
  | _fuel + 1 => do
    startNode none
    let _ ← getNextToken (some (.one tt.This))
    finishNode t.thisExpression

/-- parser.ts lines 982-986: parseSuperExpression. -/
def parseSuperExpression : Nat → PM Node
  | 0 => pthrow .outOfFuel
  | _fuel + 1 => do
    startNode none
    let _ ← getNextToken (some (.one tt.Super))
    finishNode t.superExpression

/-- parser.ts lines 993-999: parseAssignmentExpression.  The left-hand
side is rewritten to a pattern for every assignment operator. -/
def parseAssignmentExpression : Nat → Node → PM Node
  | 0, _ => pthrow .outOfFuel
  | fuel + 1, left => do
    startNode (some left)
    let leftPattern ← pmOfExcept (expressionToPattern left)
    let operator ← getNextToken (some (.set assignmentOperatorTokens))
    let right ← parseExpression fuel { canBeSequence := false }
    finishNode (t.assignmentExpression operator.value leftPattern right)

/-- parser.ts lines 1005-1010: parseUnaryExpression. -/
def parseUnaryExpression : Nat → PM Node
  | 0 => pthrow .outOfFuel
  | fuel + 1 => do
    startNode none
    let operator ← getNextToken (some (.set unaryOperatorTokens))
    let expression ← parseExpression fuel
      { canBeGrouped := false, canBeSequence := false, canBeAssignment := false }
    finishNode (t.unaryExpression operator.value expression)

/-- parser.ts lines 1016-1021: parsePrefixUpdateExpression. -/
def parsePrefixUpdateExpression : Nat → PM Node
  | 0 => pthrow .outOfFuel
  | fuel + 1 => do
    startNode none
    let operator ← getNextToken (some (.set updateOperatorTokens))
    let argument ← parseExpression fuel
      { canBeGrouped := false, canBeSequence := false, canBeAssignment := false }
    finishNode (t.updateExpression operator.value argument true)

/-- parser.ts lines 1028-1032: parsePostfixUpdateExpression. -/
def parsePostfixUpdateExpression : Nat → Node → PM Node
  | 0, _ => pthrow .outOfFuel
  | _fuel + 1, argument => do
    startNode (some argument)
    let operator ← getNextToken (some (.set updateOperatorTokens))
    finishNode (t.updateExpression operator.value argument false)

/-- parser.ts lines 1041-1074: parseGroupedExpression (precedence
climbing). -/
def parseGroupedExpression : Nat → Node → Nat → PM Node
  | 0, _, _ => pthrow .outOfFuel
  | fuel + 1, firstExpression, minPrecedence => do
    startNode (some firstExpression)
    parseGroupedLoop fuel firstExpression minPrecedence true

/-- The outer while of parseGroupedExpression. -/
def parseGroupedLoop : Nat → Node → Nat → Bool → PM Node
  | 0, _, _, _ => pthrow .outOfFuel
  | fuel + 1, expression, minPrecedence, isFirst => do
    let lookahead ← jsGet "type" (← peekToken 0)
    if decide (lookahead.type ∈ groupedOperatorTokens) ∧ lookahead.type.prec ≥ minPrecedence then do
      if !isFirst then startNode (some expression) else pure ()
      let operator := lookahead.type
      let operatorPrecedence := operator.prec
      let _ ← advance
      let right ← parseExpression fuel { canBeGrouped := false, canBeSequence := false }
      let right ← parseGroupedInner fuel right operatorPrecedence
      let expr :=
        if decide (operator ∈ logicalOperatorTokens) then
          t.logicalExpression operator.name expression right
        else
          t.binaryExpression operator.name expression right
      let expression2 ← finishNode expr
      parseGroupedLoop fuel expression2 minPrecedence false
    else pure expression

/-- The inner while of parseGroupedExpression: climb while the next
operator binds tighter, or equally for a right-associative operator. -/
def parseGroupedInner : Nat → Node → Nat → PM Node
  | 0, _, _ => pthrow .outOfFuel
  | fuel + 1, right, operatorPrecedence => do
    let lookahead ← jsGet "type" (← peekToken 0)
    if decide (lookahead.type ∈ groupedOperatorTokens) ∧
        (lookahead.type.prec > operatorPrecedence
          ∨ (lookahead.type.rightAssociative ∧ lookahead.type.prec ≥ operatorPrecedence)) then do
      let nextMinPrecedence :=
        operatorPrecedence + (if lookahead.type.prec > operatorPrecedence then 1 else 0)
      let right2 ← parseGroupedExpression fuel right nextMinPrecedence
      parseGroupedInner fuel right2 operatorPrecedence
    else pure right

/-- parser.ts lines 1081-1099: parseSequenceExpression. -/
def parseSequenceExpression : Nat → Node → PM Node
  | 0, _ => pthrow .outOfFuel
  | fuel + 1, firstExpression => do
    startNode (some firstExpression)
    let expressions ← parseSequenceTail fuel
    finishNode (t.sequenceExpression (firstExpression :: expressions))

/-- The while of parseSequenceExpression. -/
def parseSequenceTail : Nat → PM (List Node)
  | 0 => pthrow .outOfFuel
  | fuel + 1 => do
    let nextExpression ←
      if (← matchToken tt.Ellipsis 0) then parseSpreadElement fuel
      else parseExpression fuel { canBeSequence := false }
    if (← matchToken tt.Comma 0) then do
      let _ ← advance
      let rest ← parseSequenceTail fuel
      pure (nextExpression :: rest)
    else pure [nextExpression]

/-- parser.ts lines 1107-1118: parseMemberExpression. -/
def parseMemberExpression : Nat → Node → Bool → PM Node
  | 0, _, _ => pthrow .outOfFuel
  | fuel + 1, object, computed => do
    startNode none
    let _ ← getNextToken (some (.one (if computed then tt.LeftBracket else tt.Dot)))
    let property ← parseExpression fuel {}
    if computed then do
      let _ ← getNextToken (some (.one tt.RightBracket))
      pure ()
    else pure ()
    finishNode (t.memberExpression object property computed)

/-- parser.ts lines 1125-1149: parseCallExpression. -/
def parseCallExpression : Nat → Node → PM Node
  | 0, _ => pthrow .outOfFuel
  | fuel + 1, callee => do
    startNode none
    let _ ← getNextToken (some (.one tt.LeftParenthesis))
    let args ← parseCallArgs fuel
    let _ ← getNextToken (some (.one tt.RightParenthesis))
    finishNode (t.callExpression callee args)

/-- The argument loop of parseCallExpression; parseNewExpression repeats
the same loop verbatim. -/
def parseCallArgs : Nat → PM (List Node)
  | 0 => pthrow .outOfFuel
  | fuel + 1 => do
    if !(← matchToken tt.RightParenthesis 0) then do
      let arg ←
        if (← matchToken tt.Ellipsis 0) then parseSpreadElement fuel
        else parseExpression fuel { canBeSequence := false }
      if (← matchToken tt.Comma 0) then do
        let _ ← advance
        if (← matchToken tt.RightParenthesis 0) then do
          let arg := addExtraTrailingComma arg
          let rest ← parseCallArgs fuel
          pure (arg :: rest)
        else do
          let rest ← parseCallArgs fuel
          pure (arg :: rest)
      else pure [arg]
    else pure []

/-- parser.ts lines 1155-1185: parseNewExpression. -/
def parseNewExpression : Nat → PM Node
  | 0 => pthrow .outOfFuel
  | fuel + 1 => do
    startNode none
    let _ ← getNextToken (some (.one tt.New))
    let callee ← parseExpression fuel { canBeCall := false }
    let args ←
      if (← matchToken tt.LeftParenthesis 0) then do
        let _ ← getNextToken (some (.one tt.LeftParenthesis))
        let args ← parseCallArgs fuel
        let _ ← getNextToken (some (.one tt.RightParenthesis))
        pure args
      else pure []
    finishNode (t.newExpression callee args)

/-- parser.ts lines 1192-1203: parseConditionalExpression. -/
def parseConditionalExpression : Nat → Node → PM Node
  | 0, _ => pthrow .outOfFuel
  | fuel + 1, test => do
    startNode none
    let _ ← getNextToken (some (.one tt.Question))
    let consequent ← parseExpression fuel {}
    let _ ← getNextToken (some (.one tt.Colon))
    let alternate ← parseExpression fuel {}
    finishNode (t.conditionalExpression test consequent alternate)

/-- parser.ts lines 1209-1214: parseSpreadElement. -/
def parseSpreadElement : Nat → PM Node
  | 0 => pthrow .outOfFuel
  | fuel + 1 => do
    startNode none
    let _ ← getNextToken (some (.one tt.Ellipsis))
    let expression ← parseExpression fuel { canBeSequence := false }
    finishNode (t.spreadElement expression)

/-- parser.ts lines 1220-1228: parseParenthesisedExpression. -/
def parseParenthesisedExpression : Nat → PM Node
  | 0 => pthrow .outOfFuel
  | fuel + 1 => do
    startNode none
    let _ ← getNextToken (some (.one tt.LeftParenthesis))
    let expression ←
      if (← matchToken tt.Ellipsis 0) then parseSpreadElement fuel
      else parseExpression fuel {}
    let _ ← getNextToken (some (.one tt.RightParenthesis))
    finishNode expression

/-- parser.ts lines 1234-1262: parseArrayExpression. -/
def parseArrayExpression : Nat → PM Node
  | 0 => pthrow .outOfFuel
  | fuel + 1 => do
    startNode none
    let _ ← getNextToken (some (.one tt.LeftBracket))
    let elements ← parseArrayElements fuel
    let _ ← getNextToken (some (.one tt.RightBracket))
    finishNode (t.arrayExpression elements)

/-- The element loop of parseArrayExpression: holes for bare commas,
spread elements, trailing-comma marking. -/
def parseArrayElements : Nat → PM (List (Option Node))
  | 0 => pthrow .outOfFuel
  | fuel + 1 => do
    if !(← matchToken tt.RightBracket 0) then
      if (← matchToken tt.Comma 0) then do
        let _ ← advance
        let rest ← parseArrayElements fuel
        pure (none :: rest)
      else do
        let element ←
          if (← matchToken tt.Ellipsis 0) then parseSpreadElement fuel
          else parseExpression fuel { canBeSequence := false }
        if (← matchToken tt.Comma 0) then do
          let _ ← advance
          if (← matchToken tt.RightBracket 0) then do
            let element := addExtraTrailingComma element
            let rest ← parseArrayElements fuel
            pure (some element :: rest)
          else do
            let rest ← parseArrayElements fuel
            pure (some element :: rest)
        else pure [some element]
    else pure []

/-- parser.ts lines 1268-1289: parseObjectExpression. -/
def parseObjectExpression : Nat → PM Node
  | 0 => pthrow .outOfFuel
  | fuel + 1 => do
    startNode none
    let _ ← getNextToken (some (.one tt.LeftBrace))
    let properties ← parseObjectMembers fuel
    let _ ← getNextToken (some (.one tt.RightBrace))
    finishNode (t.objectExpression properties)

/-- The member loop of parseObjectExpression. -/
def parseObjectMembers : Nat → PM (List Node)
  | 0 => pthrow .outOfFuel
  | fuel + 1 => do
    if !(← matchToken tt.RightBrace 0) then do
      let member ← parseObjectMember fuel
      if (← matchToken tt.Comma 0) then do
        let _ ← advance
        if (← matchToken tt.RightBrace 0) then do
          let member := addExtraTrailingComma member
          let rest ← parseObjectMembers fuel
          pure (member :: rest)
        else do
          let rest ← parseObjectMembers fuel
          pure (member :: rest)
      else pure [member]
    else pure []

/-- parser.ts lines 1295-1348: parseObjectMember, up to the key (and the
getter/setter and shorthand special cases). -/
def parseObjectMember : Nat → PM Node
  | 0 => pthrow .outOfFuel
  | fuel + 1 => do
    let nextToken ← jsGet "type" (← peekToken 0)
    if nextToken.type = tt.LeftBracket then do
      startNode none
      let _ ← getNextToken (some (.one tt.LeftBracket))
      let key ← parseExpression fuel {}
      let _ ← getNextToken (some (.one tt.RightBracket))
      parseObjectMemberRest fuel key true none
    else if nextToken.type = tt.Identifier ∨ nextToken.type.isKeyword then do
      startNode none
      let key ←
        if nextToken.type = tt.Identifier then parseIdentifier fuel
        else parseKeywordAsIdentifier fuel
      let nextToken2 ← jsGet "type" (← peekToken 0)
      let keyName := match key with
        | .mk (.identifier n) _ => n
        | _ => "" -- key.name of a non-identifier is undefined in JS
      if (keyName = "get" ∨ keyName = "set") ∧
          (nextToken2.type = tt.Identifier ∨ nextToken2.type.isKeyword) then do
        let key2 ←
          if nextToken2.type = tt.Identifier then parseIdentifier fuel
          else parseKeywordAsIdentifier fuel
        let nextToken3 ← jsGet "type" (← peekToken 0)
        if nextToken3.type ≠ tt.LeftParenthesis then
          pthrow (.syntaxError (unexpectedTokenErrorMessage nextToken3 (some (.one tt.LeftParenthesis))))
        else
          parseObjectMemberRest fuel key2 false (some keyName)
      else if nextToken2.type = tt.Comma ∨ nextToken2.type = tt.RightBrace then
        finishNode (t.objectProperty key key false true) -- shorthand property
      else
        parseObjectMemberRest fuel key false none
    else if nextToken.type = tt.Ellipsis then parseSpreadElement fuel
    else pthrow (.syntaxError (unexpectedTokenErrorMessage nextToken none))

/-- parser.ts lines 1332-1347: the part of parseObjectMember after the
key.  Note the source call `t.objectMethod(method || 'method', key,
params, body, computed)` passes `computed` in the builder's `generator`
position. -/
def parseObjectMemberRest : Nat → Node → Bool → Option String → PM Node
  | 0, _, _, _ => pthrow .outOfFuel
  | fuel + 1, key, computed, method => do
    let nextToken ← jsGet "type" (← peekToken 0)
    if nextToken.type = tt.Colon then do
      let _ ← getNextToken none
      let value ← parseExpression fuel { canBeSequence := false }
      finishNode (t.objectProperty key value computed)
    else if nextToken.type = tt.Assignment then do -- assignment property
      let expression ← parseAssignmentExpression fuel key
      let assignmentPattern ←
        match expression with
        | .mk (.assignmentExpression op l r) ex =>
          pmOfExcept (assignmentExpressionToPattern op l r ex)
        | _ => pthrow (.typeError "assignmentExpressionToPattern applied to a non-assignment node")
      finishNode (t.objectProperty key assignmentPattern)
    else if nextToken.type = tt.LeftParenthesis then do
      let params ← parseFunctionParams fuel
      let body ← parseBlockStatement fuel
      finishNode (t.objectMethod (method.getD "method") key params body computed false false)
    else pthrow (.syntaxError (unexpectedTokenErrorMessage nextToken none))

/-- parser.ts lines 1354-1369: parseYieldExpression. -/
def parseYieldExpression : Nat → PM Node
  | 0 => pthrow .outOfFuel
  | fuel + 1 => do
    startNode none
    let _ ← getNextToken (some (.one tt.Yield))
    let delegate ←
      if (← matchToken tt.Multiply 0) then do
        let _ ← advance
        pure true
      else pure false
    let argument ←
      if (← isBreak) then pure (none : Option Node)
      else do
        let e ← parseExpression fuel {}
        pure (some e)
    finishNode (t.yieldExpression argument delegate)

/-- parser.ts lines 1375-1381: parseAwaitExpression. -/
def parseAwaitExpression : Nat → PM Node
  | 0 => pthrow .outOfFuel
  | fuel + 1 => do
    startNode none
    let _ ← getNextToken (some (.one tt.Await))
    let argument ← parseExpression fuel {}
    finishNode (t.awaitExpression argument)

/-- parser.ts lines 1389-1398: parseArrowFunctionExpression. -/
def parseArrowFunctionExpression : Nat → List Node → Bool → PM Node
  | 0, _, _ => pthrow .outOfFuel
  | fuel + 1, params, async => do
    startNode none
    let _ ← getNextToken (some (.one tt.Arrow))
    let body ←
      if (← matchToken tt.LeftBrace 0) then parseBlockStatement fuel
      else parseExpression fuel {}
    finishNode (t.arrowFunctionExpression params body async)

/-- parser.ts lines 1405-1417: parseDoExpression. -/
def parseDoExpression : Nat → Bool → PM Node
  | 0, _ => pthrow .outOfFuel
  | fuel + 1, isAsync => do
    startNode none
    let async ←
      if isAsync then do
        let _ ← getNextToken (some (.one tt.Async))
        pure true
      else pure false
    let _ ← getNextToken (some (.one tt.Do))
    let body ← parseBlockStatement fuel
    finishNode (t.doExpression body async)

end

end Parser

/-- The fuel the entry points pass to the recursive parser; it only bounds
recursion depth and loop counts, and is never exhausted on the inputs of
the theorems below. -/
def parseFuel : Nat := 1000

/-- Modelled from the spec: the exported `parse(source, options)` entry
point (§6); the index module wiring the two stages together is not among
the repository's files.  Per the §2 data flow it tokenises the source and
runs `Parser.parse` on the token vector, with the options record passed
through. -/
def parse (source : String) (options : ParserOptions) : Except JsError Node := do
  let tokens ← Tokeniser.tokenise source
  match Parser.parse parseFuel
      { input := source.data, tokens := tokens, options := options,
        position := 0, nodeStartPositions := [], warnings := [] } with
  | .ok (node, _) => .ok node
  | .error e => .error e

/-- Modelled from the spec: the exported `parseExpression(source,
options)` entry point (§6); the index module is not among the repository's
files.  It tokenises the source and parses a single expression with the
parser's default flags; per §8 (`1abc` raises "Unexpected token abc") the
expression must be followed by the end of the input, checked with the
parser's expect primitive on `eof`. -/
def parseExpression (source : String) (options : ParserOptions) : Except JsError Node := do
  let tokens ← Tokeniser.tokenise source
  let run : PM Node := do
    let expression ← Parser.parseExpression parseFuel {}
    let _ ← Parser.getNextToken (some (.one tt.EOF))
    pure expression
  match run { input := source.data, tokens := tokens, options := options,
              position := 0, nodeStartPositions := [], warnings := [] } with
  | .ok (node, _) => .ok node
  | .error e => .error e

/-! ## Theorems about the claims.

Concrete runs are settled by reduction (`rfl`); `smartUnfolding` is
disabled for those proofs because the default unfolding strategy is
exponential on the state-passing definitions. -/

/-- A single-line token literal: type, value, start column/offset, end
column/offset — what the tokeniser attaches on one-line inputs. -/
def tk (ty : TokenType) (v : String) (c1 p1 c2 p2 : Int) : Token :=
  { type := ty, value := v,
    location := { start := { line := 0, column := c1, position := p1 },
                  endPos := { line := 0, column := c2, position := p2 } } }

/-- A parser state whose cursor stands at the `=` token of `a = b` (the
identifier `a` has already been consumed), used to evaluate the
assignment-expression invariant at a concrete input. -/
def c9state : PState :=
  { input := "a = b".data,
    tokens := [tk tt.Identifier "a" 0 0 0 0, tk tt.Assignment "=" 2 2 2 2,
               tk tt.Identifier "b" 4 4 4 4, tk tt.EOF "EOF" 5 5 5 5],
    options := { omitLocations := true },
    position := 1, nodeStartPositions := [], warnings := [] }

/-- A matcher that never reports a zero-length match: every success
consumes at least one character. -/
def MatcherOk (m : TokenMatcher) : Prop :=
  ∀ input res, m input = some res → 1 ≤ res.length

/-- Lifting MatcherOk through an Option of candidate lists. -/
def BucketOk (o : Option (List TokenMatcher)) : Prop :=
  ∀ ms, o = some ms → ∀ m ∈ ms, MatcherOk m

/-- The 35 keyword strings of the matcher map, bucket by bucket. -/
def keywordStrings : List String :=
  ["async", "await", "break", "case", "catch", "const", "continue",
   "debugger", "default", "delete", "do", "else", "false", "finally",
   "for", "function", "if", "instanceof", "in", "let", "new", "null",
   "return", "super", "switch", "this", "throw", "true", "try", "typeof",
   "var", "void", "while", "with", "yield"]

/-- The identifier regex `[a-zA-Z_$][a-zA-Z0-9_$]*`, anchored on the whole
string. -/
def matchesIdentifierRegex (s : String) : Bool :=
  match s.data with
  | [] => false
  | c :: rest => isRegexIdentFirst c && rest.all isRegexIdentRest

/-- Lifting a property of candidate lists through the bucket Option. -/
def BucketKw (o : Option (List TokenMatcher)) : Prop :=
  ∀ ms, o = some ms → ∀ m ∈ ms,
    ∃ ty k, k ∈ keywordStrings ∧ m = keywordMatcher ty k

set_option smartUnfolding false in
set_option maxHeartbeats 4000000 in
/-- C1: parser.ts line 499 requires `this.match(tt.RightBrace)` (not its
negation) for the loop that collects a case's consequent, so a switch
case can never collect a second statement: `switch (x) { case 1: a; b; }`
raises SyntaxError "Unexpected token b, expected case" instead of parsing
with both statements in the single case's consequent, and even
`switch (x) { case 1: a; }` raises "Unexpected token }".  This evaluates
the embedded parser at the failing inputs of the code_bug record of
claim C1. -/
theorem C1_switch_case_consequent_never_extends :
    parse "switch (x) { case 1: a; b; }" {} =
        .error (.syntaxError "Unexpected token b, expected case")
      ∧ parse "switch (x) { case 1: a; }" {} =
        .error (.syntaxError "Unexpected token \x7d") :=
  ⟨rfl, rfl⟩

set_option smartUnfolding false in
set_option maxHeartbeats 4000000 in
/-- C2: parsing `2 ** 3 ** 4` produces the right-nested tree
`BinaryExpression(**, 2, BinaryExpression(**, 3, 4))`, realised by the
precedence-climbing loop's ≥ comparison for the right-associative `**`
and an unincremented minimum precedence. -/
theorem C2_exponentiation_right_associative :
    parse "2 ** 3 ** 4" { omitLocations := true } =
      .ok (t.program [t.expressionStatement
        (t.binaryExpression "**" (t.numericLiteral 2)
          (t.binaryExpression "**" (t.numericLiteral 3) (t.numericLiteral 4)))]) :=
  rfl

set_option smartUnfolding false in
/-- C3, counterexample: on input "x" the identifier token is emitted with
the cursor at offset 1, but its span's end offset is 0 (the tokeniser
stores `position - 1`), so the end offset does not equal the cursor after
consumption; moreover the EOF token's span has start offset 1 and end
offset 0, violating start ≤ end. -/
theorem C3_counterexample_end_offset_is_cursor_minus_one :
    Tokeniser.tokeniseAux "x" =
        .ok [(tk tt.Identifier "x" 0 0 1 0, 1), (tk tt.EOF "EOF" 1 1 1 0, 1)]
      ∧ (tk tt.Identifier "x" 0 0 1 0).location.endPos.position ≠ (1 : Int)
      ∧ ¬ ((tk tt.EOF "EOF" 1 1 1 0).location.start.position ≤
            (tk tt.EOF "EOF" 1 1 1 0).location.endPos.position) :=
  ⟨rfl, by decide, by decide⟩

set_option smartUnfolding false in
/-- C4: isIdentifierCharCode (tokenMatcher.ts lines 843-849) stops its
first range at char code 56 although its comment says 0-9, so the digit 9
(code 57) is not an identifier-continuation character, and `do9`
tokenizes as the keyword `do` followed by the number 9 instead of a
single identifier.  This evaluates the embedded lexer at the failing
input of the code_bug record of claim C4. -/
theorem C4_keyword_followed_by_digit_nine :
    Tokeniser.tokenise "do9" =
        .ok [tk tt.Do "do" 0 0 2 1, tk tt.Number "9" 2 2 3 2, tk tt.EOF "EOF" 3 3 3 2]
      ∧ isIdentifierCharCode 57 = false
      ∧ isIdentifierCharCode 56 = true :=
  ⟨rfl, by decide, by decide⟩

set_option smartUnfolding false in
/-- C5, counterexample: the string "true" matches the identifier regex
`[A-Za-z_$][A-Za-z0-9_$]*`, but parsing it as an expression yields a
BooleanLiteral — not an Identifier whose name is "true" — because the
keyword matcher wins over the identifier fallback. -/
theorem C5_counterexample_keyword_string :
    parseExpression "true" { omitLocations := true } = .ok (t.booleanLiteral true)
      ∧ (t.booleanLiteral true).type = "BooleanLiteral" :=
  ⟨rfl, rfl⟩

set_option smartUnfolding false in
set_option maxHeartbeats 4000000 in
/-- C6, counterexample: the spec's example `const [..a, b] = x;` contains
`..`, which lexes as two Dot tokens, so the parser raises SyntaxError
"Unexpected token ." — not the rest-element message the claim states. -/
theorem C6_counterexample_two_dots :
    parse "const [..a, b] = x;" {} = .error (.syntaxError "Unexpected token .") :=
  rfl

set_option smartUnfolding false in
set_option maxHeartbeats 4000000 in
/-- C6, amended: a rest element that is not the last element of an array
destructuring pattern is rejected with exactly the SyntaxError message
"A rest element must be last in a destructuring pattern"; the input
demonstrating it is `const [...a, b] = x;`, the spec's example written
with the three-dot rest syntax. -/
theorem C6_rest_element_not_last_message :
    parse "const [...a, b] = x;" {} =
      .error (.syntaxError "A rest element must be last in a destructuring pattern") :=
  rfl

set_option smartUnfolding false in
/-- C7: parsing the empty source with default options does not return an
empty Program: Parser.parse pushes the EOF token's start position, and
finishNode then reads `peekToken(-1)`, which is `tokens[-1] = undefined`
at position 0, so dereferencing `lastToken.location` raises a TypeError.
With `omitLocations` the same code returns the empty Program, showing the
intended result.  This evaluates the embedded parser at the failing input
of the code_bug record of claim C7. -/
theorem C7_empty_source_type_error :
    parse "" {} = .error (.typeError "Cannot read properties of undefined (reading 'location')")
      ∧ parse "" { omitLocations := true } = .ok (t.program []) :=
  ⟨rfl, rfl⟩

/-- Inverting a successful `Except` bind. -/
theorem exceptBindOk {eps alpha beta : Type} {m : Except eps alpha} {f : alpha → Except eps beta}
    {b : beta} (h : (m >>= f) = .ok b) : ∃ a, m = .ok a ∧ f a = .ok b := by
  cases m with
  | ok a => exact ⟨a, rfl, h⟩
  | error e => exact Except.noConfusion h

/-- A node that already is a pattern is returned unchanged by the
rewriter (the first branch of expressionToPattern). -/
theorem expressionToPattern_of_isPattern {x : Node} (hp : isPattern x = true) :
    expressionToPattern x = .ok x := by
  unfold expressionToPattern
  rw [if_pos hp]

/-- Whenever the rewriter succeeds, its result is a Pattern: each arm of
expressionToPattern returns a node tagged Identifier, AssignmentPattern,
ArrayPattern, ObjectPattern or RestElement. -/
theorem expressionToPattern_ok_isPattern {x p : Node}
    (h : expressionToPattern x = .ok p) : isPattern p = true := by
  obtain ⟨k, extra⟩ := x
  by_cases hp : isPattern (Node.mk k extra)
  · rw [expressionToPattern_of_isPattern hp] at h
    injection h with h2
    subst h2
    exact hp
  · unfold expressionToPattern at h
    rw [if_neg hp] at h
    cases k
    all_goals try exact Except.noConfusion h
    -- remaining: assignmentExpression, arrayExpression, objectExpression,
    -- spreadElement
    · rename_i operator left right
      replace h :
          (if operator ≠ "=" then
            (.error (.syntaxError
              ("Invalid assignment pattern operator " ++ operator ++ ", expected ="))
              : Except JsError Node)
          else if isPattern left = true then
            (pure left : Except JsError Node) >>= fun l =>
              pure ((t.assignmentPattern l right).withExtra extra)
          else
            expressionToPattern left >>= fun l =>
              pure ((t.assignmentPattern l right).withExtra extra)) = Except.ok p := h
      split at h
      · exact Except.noConfusion h
      · split at h
        all_goals
          obtain ⟨l2, _, hb⟩ := exceptBindOk h
        all_goals
          injection hb with hb2
        all_goals
          subst hb2
        all_goals rfl
    · rename_i elements
      replace h :
          (arrayElementsToPatterns elements >>= fun els =>
            pure ((t.arrayPattern els).withExtra extra)) = Except.ok p := h
      obtain ⟨els2, _, hb⟩ := exceptBindOk h
      injection hb with hb2
      subst hb2
      rfl
    · rename_i properties
      replace h :
          (objectMembersToPatterns properties >>= fun props =>
            pure ((t.objectPattern props).withExtra extra)) = Except.ok p := h
      obtain ⟨props2, _, hb⟩ := exceptBindOk h
      injection hb with hb2
      subst hb2
      rfl
    · rename_i argument
      replace h :
          (expressionToPattern argument >>= fun pat =>
            pure ((t.restElement pat).withExtra extra)) = Except.ok p := h
      obtain ⟨p2, _, hb⟩ := exceptBindOk h
      injection hb with hb2
      subst hb2
      rfl

/-- C8: the expression-to-pattern rewriter is idempotent: a node whose
kind is already a Pattern kind is returned unchanged, and whenever the
rewrite succeeds, applying it to the result returns the result
unchanged (rewrite (rewrite x) = rewrite x). -/
theorem C8_rewriter_idempotent (x p : Node) :
    (isPattern x = true → expressionToPattern x = .ok x) ∧
      (expressionToPattern x = .ok p → expressionToPattern p = .ok p) :=
  ⟨expressionToPattern_of_isPattern,
   fun h => expressionToPattern_of_isPattern (expressionToPattern_ok_isPattern h)⟩

/-- Witness for C8 at a concrete input: the identifier `a` is already a
pattern and is returned unchanged, so the rewrite of the rewrite is the
rewrite. -/
theorem C8_rewriter_idempotent_witness :
    expressionToPattern (t.identifier "a") = .ok (t.identifier "a") :=
  (C8_rewriter_idempotent (t.identifier "a") (t.identifier "a")).1 rfl

/-- Inverting a successful bind in the parser monad. -/
theorem pmBindOk {alpha beta : Type} {x : PM alpha} {f : alpha → PM beta} {s : PState}
    {b : beta} {s3 : PState} (h : (x >>= f) s = .ok (b, s3)) :
    ∃ a s2, x s = .ok (a, s2) ∧ f a s2 = .ok (b, s3) := by
  have h2 : (match x s with
      | .ok (a, s2) => f a s2
      | .error e => (.error e : Except JsError (beta × PState))) = .ok (b, s3) := h
  cases hx : x s with
  | ok p =>
    obtain ⟨a, s2⟩ := p
    rw [hx] at h2
    exact ⟨a, s2, rfl, h2⟩
  | error e =>
    rw [hx] at h2
    exact Except.noConfusion h2

/-- Inverting a successful run of a lifted Except computation. -/
theorem pmOfExceptOk {alpha : Type} {m : Except JsError alpha} {s : PState} {a : alpha}
    {s2 : PState} (h : pmOfExcept m s = .ok (a, s2)) : m = .ok a := by
  cases m with
  | ok x =>
    have h2 : (Except.ok (x, s) : Except JsError (alpha × PState)) = .ok (a, s2) := h
    injection h2 with h3
    injection h3 with h4 h5
    rw [h4]
  | error e => exact Except.noConfusion h

/-- Inverting a successful pure computation in the parser monad. -/
theorem pmPureOk {alpha : Type} {a b : alpha} {s s2 : PState}
    (h : (pure a : PM alpha) s = .ok (b, s2)) : b = a ∧ s2 = s := by
  have h2 : (Except.ok (a, s) : Except JsError (alpha × PState)) = .ok (b, s2) := h
  injection h2 with h3
  injection h3 with h4 h5
  exact ⟨h4.symm, h5.symm⟩

/-- addExtraLocation only replaces the extra field. -/
theorem addExtraLocation_shape (n : Node) (loc : SourceLocation) :
    ∃ e, Parser.addExtraLocation n loc = Node.mk n.kind e := by
  cases n
  exact ⟨_, rfl⟩

/-- Eta rule for the two-field Node. -/
theorem node_eta : ∀ n : Node, n = Node.mk n.kind n.extra
  | .mk _ _ => rfl

/-- finishNode only decorates the node with a location: the kind of the
node it returns is the kind of its argument. -/
theorem finishNode_shape {n : Node} {s : PState} {m : Node} {s3 : PState}
    (h : Parser.finishNode n s = .ok (m, s3)) : ∃ e, m = Node.mk n.kind e := by
  obtain ⟨s0, s1, h1, h2⟩ := pmBindOk h
  have h1b : (Except.ok (s, s) : Except JsError (PState × PState)) = .ok (s0, s1) := h1
  injection h1b with h1c
  injection h1c with hA hB
  subst hA
  subst hB
  split at h2
  · obtain ⟨hm, _⟩ := pmPureOk h2
    exact ⟨n.extra, hm.trans (node_eta n)⟩
  · obtain ⟨lt?, sA, h3, h4⟩ := pmBindOk h2
    split at h4
    · cases lt? with
      | none => exact Except.noConfusion h4
      | some lastToken =>
        cases hns : s.nodeStartPositions with
        | nil =>
          rw [hns] at h4
          obtain ⟨hm, _⟩ := pmPureOk h4
          exact ⟨n.extra, hm.trans (node_eta n)⟩
        | cons start rest2 =>
          rw [hns] at h4
          obtain ⟨u, sB, h5, h6⟩ := pmBindOk h4
          obtain ⟨hm, _⟩ := pmPureOk h6
          obtain ⟨e, he⟩ := addExtraLocation_shape n
            { start := start, endPos := lastToken.location.endPos }
          exact ⟨e, hm.trans he⟩
    · obtain ⟨hm, _⟩ := pmPureOk h4
      exact ⟨n.extra, hm.trans (node_eta n)⟩

set_option smartUnfolding false in
/-- Whenever parseAssignmentExpression succeeds, the node it returns is an
AssignmentExpression whose left child satisfies isPattern: the left-hand
side is passed through expressionToPattern before the operator is even
read, so the rewrite happens for every assignment operator. -/
theorem parseAssignmentExpression_left_pattern {fuel : Nat} {left : Node} {s : PState}
    {node : Node} {s9 : PState}
    (h : Parser.parseAssignmentExpression fuel left s = .ok (node, s9)) :
    ∃ op l r e, node = Node.mk (.assignmentExpression op l r) e ∧ isPattern l = true := by
  cases fuel with
  | zero => exact Except.noConfusion h
  | succ fuel =>
    replace h :
        (Parser.startNode (some left) >>= fun _ =>
          pmOfExcept (expressionToPattern left) >>= fun leftPattern =>
          Parser.getNextToken (some (.set assignmentOperatorTokens)) >>= fun operator =>
          Parser.parseExpression fuel { canBeSequence := false } >>= fun right =>
          Parser.finishNode (t.assignmentExpression operator.value leftPattern right)) s
          = .ok (node, s9) := h
    obtain ⟨u0, s1, h1, h⟩ := pmBindOk h
    obtain ⟨leftPattern, s2, h2, h⟩ := pmBindOk h
    obtain ⟨operator, s3, h3, h⟩ := pmBindOk h
    obtain ⟨right, s4, h4, h⟩ := pmBindOk h
    have hpat : expressionToPattern left = .ok leftPattern := pmOfExceptOk h2
    have hisp : isPattern leftPattern = true := expressionToPattern_ok_isPattern hpat
    obtain ⟨e, he⟩ := finishNode_shape h
    exact ⟨operator.value, leftPattern, right, e, he, hisp⟩

set_option smartUnfolding false in
set_option maxHeartbeats 16000000 in
/-- C9: every AssignmentExpression node the parser returns has a Pattern
left child — parseAssignmentExpression pipes the left-hand side through
expressionToPattern before it reads the operator, so the rewrite runs for
all sixteen assignment operators, and an assignment whose left-hand side
is any other expression kind, such as the parenthesised member expression
in `(a.b) = 1`, raises a SyntaxError naming the invalid pattern kind. -/
theorem C9_assignment_left_is_pattern :
    (∀ (fuel : Nat) (left : Node) (s : PState) (node : Node) (s9 : PState),
        Parser.parseAssignmentExpression fuel left s = .ok (node, s9) →
          ∃ op l r e, node = Node.mk (.assignmentExpression op l r) e ∧ isPattern l = true)
      ∧ (∀ ty ∈ assignmentOperatorTokens,
          parse ("a " ++ ty.name ++ " b;") { omitLocations := true } =
            .ok (t.program [t.expressionStatement
              (t.assignmentExpression ty.name (t.identifier "a") (t.identifier "b"))]))
      ∧ parse "(a.b) = 1;" {} = .error (.syntaxError "Invalid pattern MemberExpression") :=
  ⟨fun _ _ _ _ _ h => parseAssignmentExpression_left_pattern h,
   by intro ty hty; fin_cases hty <;> rfl,
   rfl⟩

set_option smartUnfolding false in
/-- C9 witness at concrete inputs: the invariant instantiated at a run of
parseAssignmentExpression on the state standing at the `=` of `a = b`,
and the whole-pipeline conjunct instantiated at the operator `=`. -/
theorem C9_assignment_left_is_pattern_witness :
    (∃ op l r e,
        t.assignmentExpression "=" (t.identifier "a") (t.identifier "b")
          = Node.mk (.assignmentExpression op l r) e ∧ isPattern l = true)
      ∧ parse "a = b;" { omitLocations := true } =
          .ok (t.program [t.expressionStatement
            (t.assignmentExpression "=" (t.identifier "a") (t.identifier "b"))]) :=
  ⟨C9_assignment_left_is_pattern.1 10 (t.identifier "a") c9state
      (t.assignmentExpression "=" (t.identifier "a") (t.identifier "b"))
      { c9state with position := 3 } rfl,
   C9_assignment_left_is_pattern.2.1 tt.Assignment (by decide)⟩

/-- One step of readWhitespace when the cursor is inside the input. -/
theorem readWhitespace_step (fuel : Nat) (st : LexState) (h : st.position < st.input.length) :
    Tokeniser.readWhitespace (fuel + 1) st =
      if st.input.get ⟨st.position, h⟩ = ' ' ∨ st.input.get ⟨st.position, h⟩ = '\r'
          ∨ st.input.get ⟨st.position, h⟩ = '\t' then
        Tokeniser.readWhitespace fuel
          { (Tokeniser.advance 1 st) with
            tokenStart := { st.tokenStart with
                            position := st.tokenStart.position + 1,
                            column := st.tokenStart.column + 1 } }
      else if st.input.get ⟨st.position, h⟩ = '\n' then
        Tokeniser.readWhitespace fuel
          { st with position := st.position + 1,
                    lineNumber := st.lineNumber + 1,
                    columnNumber := 0,
                    tokenStart := { st.tokenStart with
                                    position := st.tokenStart.position + 1,
                                    line := st.tokenStart.line + 1,
                                    column := 0 } }
      else st := by
  rw [Tokeniser.readWhitespace, dif_pos h]

/-- On an all-whitespace remainder, readWhitespace leaves the input alone
and drives the cursor to the end of the input, provided the fuel covers
the remaining characters (every call site passes `input.length + 1`). -/
theorem readWhitespace_consumes_all (fuel : Nat) (st : LexState)
    (hws : ∀ c ∈ st.input.drop st.position, c = ' ' ∨ c = '\r' ∨ c = '\t' ∨ c = '\n')
    (hfuel : st.input.length - st.position ≤ fuel)
    (hpos : st.position ≤ st.input.length) :
    (Tokeniser.readWhitespace fuel st).input = st.input ∧
      (Tokeniser.readWhitespace fuel st).position = st.input.length := by
  induction fuel generalizing st with
  | zero =>
    rw [Tokeniser.readWhitespace]
    exact ⟨rfl, by omega⟩
  | succ fuel ih =>
    by_cases h : st.position < st.input.length
    · rw [readWhitespace_step fuel st h]
      have hdrop : st.input.drop st.position
          = st.input.get ⟨st.position, h⟩ :: st.input.drop (st.position + 1) :=
        List.drop_eq_getElem_cons h
      have hc := hws (st.input.get ⟨st.position, h⟩)
        (by rw [hdrop]; exact List.mem_cons_self _ _)
      have hws' : ∀ c ∈ st.input.drop (st.position + 1),
          c = ' ' ∨ c = '\r' ∨ c = '\t' ∨ c = '\n' :=
        fun c hm => hws c (by rw [hdrop]; exact List.mem_cons_of_mem _ hm)
      have h1 : st.input.length - (st.position + 1) ≤ fuel := by omega
      have h2 : st.position + 1 ≤ st.input.length := by omega
      rcases hc with hc | hc | hc | hc
      · rw [if_pos (Or.inl hc)]
        exact ih _ hws' h1 h2
      · rw [if_pos (Or.inr (Or.inl hc))]
        exact ih _ hws' h1 h2
      · rw [if_pos (Or.inr (Or.inr hc))]
        exact ih _ hws' h1 h2
      · have hne : ¬(st.input.get ⟨st.position, h⟩ = ' '
            ∨ st.input.get ⟨st.position, h⟩ = '\r'
            ∨ st.input.get ⟨st.position, h⟩ = '\t') := by
          rw [hc]; decide
        rw [if_neg hne, if_pos hc]
        exact ih _ hws' h1 h2
    · rw [Tokeniser.readWhitespace, dif_neg h]
      exact ⟨rfl, by omega⟩

/-- A tokeniser error makes the parse entry point fail with the same
error. -/
theorem parse_tokenise_error {source : String} {options : ParserOptions} {e : JsError}
    (h : Tokeniser.tokenise source = .error e) : parse source options = .error e := by
  unfold parse
  rw [h]
  rfl

set_option smartUnfolding false in
/-- C10: a non-empty source consisting only of whitespace (space, tab,
carriage return, line feed) does not tokenise to an EOF token: the loop is
entered because the cursor is before the end of the input, readWhitespace
then drives the cursor to the end, the match runs on the empty remainder,
no matcher accepts it, and the tokeniser throws "Unable to match input "
with the empty remaining prefix, so parsing fails with that error. -/
theorem C10_whitespace_only_source_fails (source : String) (hne : source ≠ "")
    (hws : ∀ c ∈ source.data, c = ' ' ∨ c = '\r' ∨ c = '\t' ∨ c = '\n') :
    Tokeniser.tokenise source = .error (.error "Unable to match input ")
      ∧ parse source {} = .error (.error "Unable to match input ") := by
  have hdata : source.data ≠ [] := fun hnil => hne (String.ext (hnil.trans rfl))
  have hlen : 0 < source.data.length := List.length_pos.mpr hdata
  have hfuel0 : (Tokeniser.initState source.data).input.length
      - (Tokeniser.initState source.data).position
      ≤ (Tokeniser.initState source.data).input.length + 1 := by
    show source.data.length - 0 ≤ source.data.length + 1
    omega
  have hpos0 : (Tokeniser.initState source.data).position
      ≤ (Tokeniser.initState source.data).input.length :=
    Nat.zero_le _
  have hcons := readWhitespace_consumes_all
    ((Tokeniser.initState source.data).input.length + 1) (Tokeniser.initState source.data)
    (fun c hm => hws c hm) hfuel0 hpos0
  obtain ⟨hIn, hPos⟩ := hcons
  have haux : Tokeniser.tokeniseAux source = .error (.error "Unable to match input ") := by
    rw [Tokeniser.tokeniseAux]
    simp only [Tokeniser.tokeniseLoop]
    rw [if_pos (show (Tokeniser.initState source.data).position
        < (Tokeniser.initState source.data).input.length from hlen)]
    rw [hIn, hPos, List.drop_length]
    rw [show (Tokeniser.initState source.data).input = source.data from rfl]
    rw [show (source.data.get? source.data.length) = none from
      List.get?_eq_none.mpr (Nat.le_refl _)]
    rfl
  refine ⟨?_, ?_⟩
  · rw [Tokeniser.tokenise, haux]
    rfl
  · exact parse_tokenise_error (by rw [Tokeniser.tokenise, haux]; rfl)

/-- C10 witness at the concrete input of the claim: a single space. -/
theorem C10_whitespace_only_source_fails_witness :
    (" " ≠ "" ∧ ∀ c ∈ " ".data, c = ' ' ∨ c = '\r' ∨ c = '\t' ∨ c = '\n')
      ∧ Tokeniser.tokenise " " = .error (.error "Unable to match input ")
      ∧ parse " " {} = .error (.error "Unable to match input ") :=
  ⟨⟨by decide, by decide⟩,
   C10_whitespace_only_source_fails " " (by decide) (by decide)⟩

/-- characterMatcher reports length 1. -/
theorem characterMatcher_ok (ty : TokenType) (ch : Char) :
    MatcherOk (characterMatcher ty ch) := by
  intro input res h
  unfold characterMatcher at h
  split at h
  · injection h with h2
    rw [← h2]
  · exact Option.noConfusion h

theorem stringMatcher_ok (ty : TokenType) (str : String) (hs : 1 ≤ str.length) :
    MatcherOk (stringMatcher ty str) := by
  intro input res h
  unfold stringMatcher at h
  split at h
  · injection h with h2
    rw [← h2]
    exact hs
  · exact Option.noConfusion h

theorem keywordMatcher_ok (ty : TokenType) (str : String) (hs : 1 ≤ str.length) :
    MatcherOk (keywordMatcher ty str) := by
  intro input res h
  unfold keywordMatcher at h
  split at h
  · injection h with h2
    rw [← h2]
    exact hs
  · exact Option.noConfusion h

theorem matchIdentifierRegex_ok : MatcherOk matchIdentifierRegex := by
  intro input res h
  cases input with
  | nil => exact Option.noConfusion h
  | cons c rest =>
    replace h : (if isRegexIdentFirst c = true then
        some { length := (c :: rest.takeWhile isRegexIdentRest).length,
               token := { type := tt.Identifier,
                          value := String.mk (c :: rest.takeWhile isRegexIdentRest) } }
      else none) = some res := h
    split at h
    · injection h with h2
      rw [← h2]
      exact Nat.succ_le_succ (Nat.zero_le _)
    · exact Option.noConfusion h

theorem matchNumberRegex_ok : MatcherOk matchNumberRegex := by
  intro input res h
  cases input with
  | nil => exact Option.noConfusion h
  | cons c rest =>
    replace h : (if isRegexDigit c = true then
        some { length := (c :: rest.takeWhile isRegexDigit).length,
               token := { type := tt.Number,
                          value := String.mk (c :: rest.takeWhile isRegexDigit) } }
      else none) = some res := h
    split at h
    · injection h with h2
      rw [← h2]
      exact Nat.succ_le_succ (Nat.zero_le _)
    · exact Option.noConfusion h

theorem matchPlusTokens_ok : MatcherOk matchPlusTokens := by
  intro input res h
  unfold matchPlusTokens at h
  split_ifs at h <;>
    first
      | exact Option.noConfusion h
      | (injection h with h2; rw [← h2]; try decide)

theorem matchMinusTokens_ok : MatcherOk matchMinusTokens := by
  intro input res h
  unfold matchMinusTokens at h
  split_ifs at h <;>
    first
      | exact Option.noConfusion h
      | (injection h with h2; rw [← h2]; try decide)

theorem matchStarTokens_ok : MatcherOk matchStarTokens := by
  intro input res h
  unfold matchStarTokens at h
  split_ifs at h <;>
    first
      | exact Option.noConfusion h
      | (injection h with h2; rw [← h2]; try decide)

theorem matchDivideTokens_ok : MatcherOk matchDivideTokens := by
  intro input res h
  unfold matchDivideTokens at h
  split_ifs at h <;>
    first
      | exact Option.noConfusion h
      | (injection h with h2; rw [← h2]; try decide)

theorem matchModulusTokens_ok : MatcherOk matchModulusTokens := by
  intro input res h
  unfold matchModulusTokens at h
  split_ifs at h <;>
    first
      | exact Option.noConfusion h
      | (injection h with h2; rw [← h2]; try decide)

theorem matchLeftArrowTokens_ok : MatcherOk matchLeftArrowTokens := by
  intro input res h
  unfold matchLeftArrowTokens at h
  split_ifs at h <;>
    first
      | exact Option.noConfusion h
      | (injection h with h2; rw [← h2]; try decide)

theorem matchRightArrowTokens_ok : MatcherOk matchRightArrowTokens := by
  intro input res h
  unfold matchRightArrowTokens at h
  split_ifs at h <;>
    first
      | exact Option.noConfusion h
      | (injection h with h2; rw [← h2]; try decide)

theorem matchEqualTokens_ok : MatcherOk matchEqualTokens := by
  intro input res h
  unfold matchEqualTokens at h
  split_ifs at h <;>
    first
      | exact Option.noConfusion h
      | (injection h with h2; rw [← h2]; try decide)

theorem matchExclamationTokens_ok : MatcherOk matchExclamationTokens := by
  intro input res h
  unfold matchExclamationTokens at h
  split_ifs at h <;>
    first
      | exact Option.noConfusion h
      | (injection h with h2; rw [← h2]; try decide)

theorem matchBarTokens_ok : MatcherOk matchBarTokens := by
  intro input res h
  unfold matchBarTokens at h
  split_ifs at h <;>
    first
      | exact Option.noConfusion h
      | (injection h with h2; rw [← h2]; try decide)

theorem matchCaretTokens_ok : MatcherOk matchCaretTokens := by
  intro input res h
  unfold matchCaretTokens at h
  split_ifs at h <;>
    first
      | exact Option.noConfusion h
      | (injection h with h2; rw [← h2]; try decide)

theorem matchAmpersandTokens_ok : MatcherOk matchAmpersandTokens := by
  intro input res h
  unfold matchAmpersandTokens at h
  split_ifs at h <;>
    first
      | exact Option.noConfusion h
      | (injection h with h2; rw [← h2]; try decide)

theorem matchQuestionTokens_ok : MatcherOk matchQuestionTokens := by
  intro input res h
  unfold matchQuestionTokens at h
  split_ifs at h <;>
    first
      | exact Option.noConfusion h
      | (injection h with h2; rw [← h2]; try decide)

theorem matchSingleLineString_ok : MatcherOk matchSingleLineString := by
  intro input res h
  cases input with
  | nil => exact Option.noConfusion h
  | cons firstChar rest =>
    replace h : (if firstChar = '\'' ∨ firstChar = '"' then
        match matchStringBody firstChar false rest none [] with
        | some value =>
          some { length := value.length + 2,
                 token := { type := tt.String, value := String.mk value } }
        | none => none
      else none) = some res := h
    split at h
    · cases hb : matchStringBody firstChar false rest none [] with
      | none => rw [hb] at h; exact Option.noConfusion h
      | some value =>
        rw [hb] at h
        injection h with h2
        rw [← h2]
        have : ({ length := value.length + 2,
                  token := { type := tt.String, value := String.mk value } }
            : MatchSuccess).length = value.length + 2 := rfl
        rw [this]
        omega
    · exact Option.noConfusion h

theorem matchTemplateString_ok : MatcherOk matchTemplateString := by
  intro input res h
  cases input with
  | nil => exact Option.noConfusion h
  | cons firstChar rest =>
    replace h : (if firstChar = '`' then
        match matchStringBody firstChar true rest none [] with
        | some value =>
          some { length := value.length + 2,
                 token := { type := tt.TemplateString, value := String.mk value } }
        | none => none
      else none) = some res := h
    split at h
    · cases hb : matchStringBody firstChar true rest none [] with
      | none => rw [hb] at h; exact Option.noConfusion h
      | some value =>
        rw [hb] at h
        injection h with h2
        rw [← h2]
        have : ({ length := value.length + 2,
                  token := { type := tt.TemplateString, value := String.mk value } }
            : MatchSuccess).length = value.length + 2 := rfl
        rw [this]
        omega
    · exact Option.noConfusion h

theorem findFirstMatch_ok (ms : List TokenMatcher) (input : List Char) (res : MatchSuccess)
    (hok : ∀ m ∈ ms, MatcherOk m) (h : findFirstMatch ms input = some res) :
    1 ≤ res.length := by
  induction ms with
  | nil => exact Option.noConfusion h
  | cons m ms ih =>
    rw [findFirstMatch] at h
    cases hm : m input with
    | some r =>
      rw [hm] at h
      injection h with h2
      subst h2
      exact hok m (List.mem_cons_self _ _) input r hm
    | none =>
      rw [hm] at h
      exact ih (fun m2 hm2 => hok m2 (List.mem_cons_of_mem _ hm2)) h


theorem iteBucketOk (b : Prop) [Decidable b] (v w : Option (List TokenMatcher))
    (hv : BucketOk v) (hw : BucketOk w) : BucketOk (if b then v else w) := by
  intro ms h
  by_cases hb : b
  · rw [if_pos hb] at h
    exact hv ms h
  · rw [if_neg hb] at h
    exact hw ms h

theorem someBucketOk (L : List TokenMatcher) (hL : ∀ m ∈ L, MatcherOk m) :
    BucketOk (some L) := by
  intro ms h m hm
  injection h with h2
  subst h2
  exact hL m hm

theorem noneBucketOk : BucketOk none :=
  fun _ h => Option.noConfusion h

set_option maxHeartbeats 2000000 in
/-- Every candidate list in the matcher map holds only matchers whose
successes consume at least one character. -/
theorem matcherMapGet_ok (c : Char) : BucketOk (matcherMapGet c) := by
  unfold matcherMapGet
  repeat
    first
      | exact noneBucketOk
      | (refine iteBucketOk _ _ _ (someBucketOk _ ?_) ?_; swap)
  all_goals
    (intro m hm; fin_cases hm <;>
      first
        | exact keywordMatcher_ok _ _ (by decide)
        | exact characterMatcher_ok _ _
        | exact stringMatcher_ok _ _ (by decide)
        | exact matchPlusTokens_ok
        | exact matchMinusTokens_ok
        | exact matchStarTokens_ok
        | exact matchDivideTokens_ok
        | exact matchModulusTokens_ok
        | exact matchLeftArrowTokens_ok
        | exact matchRightArrowTokens_ok
        | exact matchEqualTokens_ok
        | exact matchExclamationTokens_ok
        | exact matchBarTokens_ok
        | exact matchCaretTokens_ok
        | exact matchAmpersandTokens_ok
        | exact matchQuestionTokens_ok
        | exact matchSingleLineString_ok
        | exact matchTemplateString_ok)

theorem dispatchMatch_ok (inputStr : List Char) (nextChar : Option Char) (res : MatchSuccess)
    (h : Tokeniser.dispatchMatch inputStr nextChar = some res) : 1 ≤ res.length := by
  have hother : ∀ m ∈ otherCharsMatchers, MatcherOk m := by
    intro m hm
    fin_cases hm
    · exact matchIdentifierRegex_ok
    · exact matchNumberRegex_ok
  cases nextChar with
  | none =>
    replace h : findFirstMatch otherCharsMatchers inputStr = some res := h
    exact findFirstMatch_ok _ _ _ hother h
  | some c =>
    replace h : (match (match matcherMapGet c with
        | some matchers => findFirstMatch matchers inputStr
        | none => none) with
      | some result => some result
      | none => findFirstMatch otherCharsMatchers inputStr) = some res := h
    cases hg : matcherMapGet c with
    | none =>
      rw [hg] at h
      replace h : findFirstMatch otherCharsMatchers inputStr = some res := h
      exact findFirstMatch_ok _ _ _ hother h
    | some ms =>
      rw [hg] at h
      replace h : (match findFirstMatch ms inputStr with
        | some result => some result
        | none => findFirstMatch otherCharsMatchers inputStr) = some res := h
      cases hf : findFirstMatch ms inputStr with
      | some r =>
        rw [hf] at h
        replace h : some r = some res := h
        injection h with h2
        subst h2
        exact findFirstMatch_ok _ _ _ (matcherMapGet_ok c ms hg) hf
      | none =>
        rw [hf] at h
        replace h : findFirstMatch otherCharsMatchers inputStr = some res := h
        exact findFirstMatch_ok _ _ _ hother h

/-- readWhitespace keeps `tokenStart.position` equal to the cursor: both
advance in lockstep over every skipped whitespace character. -/
theorem readWhitespace_tokenStart (fuel : Nat) (st : LexState)
    (hinv : st.tokenStart.position = (st.position : Int)) :
    (Tokeniser.readWhitespace fuel st).tokenStart.position
      = ((Tokeniser.readWhitespace fuel st).position : Int) := by
  induction fuel generalizing st with
  | zero =>
    rw [Tokeniser.readWhitespace]
    exact hinv
  | succ fuel ih =>
    by_cases h : st.position < st.input.length
    · rw [readWhitespace_step fuel st h]
      split_ifs with h1 h2
      · refine ih _ ?_
        show st.tokenStart.position + 1 = ((st.position + 1 : Nat) : Int)
        omega
      · refine ih _ ?_
        show st.tokenStart.position + 1 = ((st.position + 1 : Nat) : Int)
        omega
      · exact hinv
    · rw [Tokeniser.readWhitespace, dif_neg h]
      exact hinv

/-- readWhitespace also leaves the input untouched. -/
theorem readWhitespace_input (fuel : Nat) (st : LexState) :
    (Tokeniser.readWhitespace fuel st).input = st.input := by
  induction fuel generalizing st with
  | zero =>
    rw [Tokeniser.readWhitespace]
  | succ fuel ih =>
    by_cases h : st.position < st.input.length
    · rw [readWhitespace_step fuel st h]
      split_ifs with h1 h2
      · exact ih _
      · exact ih _
      · rfl
    · rw [Tokeniser.readWhitespace, dif_neg h]

/-- The token-span property of a tokeniser run: every emitted token's end
offset is the emission cursor minus one, and the start does not exceed the
end except for the EOF token, whose start is the end plus one. -/
theorem tokeniseLoop_spans (fuel : Nat) (st : LexState)
    (hinv : st.tokenStart.position = (st.position : Int))
    (l : List (Token × Nat)) (h : Tokeniser.tokeniseLoop fuel st = .ok l) :
    ∀ tp ∈ l,
      tp.1.location.endPos.position = (tp.2 : Int) - 1 ∧
      (tp.1.location.start.position ≤ tp.1.location.endPos.position
        ∨ (tp.1.type = tt.EOF
            ∧ tp.1.location.start.position = tp.1.location.endPos.position + 1)) := by
  induction fuel generalizing st l with
  | zero => exact Except.noConfusion h
  | succ fuel ih =>
    simp only [Tokeniser.tokeniseLoop] at h
    split at h
    · have hinv1 := readWhitespace_tokenStart (st.input.length + 1) st hinv
      cases hd : Tokeniser.dispatchMatch
          ((Tokeniser.readWhitespace (st.input.length + 1) st).input.drop
            (Tokeniser.readWhitespace (st.input.length + 1) st).position)
          ((Tokeniser.readWhitespace (st.input.length + 1) st).input.get?
            (Tokeniser.readWhitespace (st.input.length + 1) st).position) with
      | none =>
        rw [hd] at h
        exact Except.noConfusion h
      | some result =>
        rw [hd] at h
        have hres := dispatchMatch_ok _ _ _ hd
        replace h : Except.map
            (fun rest =>
              ((Tokeniser.addToken result.token
                    (Tokeniser.advance result.length
                      (Tokeniser.readWhitespace (st.input.length + 1) st))).1,
                  (Tokeniser.addToken result.token
                      (Tokeniser.advance result.length
                        (Tokeniser.readWhitespace (st.input.length + 1) st))).2.position)
                :: rest)
            (Tokeniser.tokeniseLoop fuel
              (Tokeniser.readWhitespace
                ((Tokeniser.addToken result.token
                    (Tokeniser.advance result.length
                      (Tokeniser.readWhitespace (st.input.length + 1) st))).2.input.length + 1)
                (Tokeniser.addToken result.token
                    (Tokeniser.advance result.length
                      (Tokeniser.readWhitespace (st.input.length + 1) st))).2))
            = Except.ok l := h
        cases hrec : Tokeniser.tokeniseLoop fuel
            (Tokeniser.readWhitespace
              ((Tokeniser.addToken result.token
                  (Tokeniser.advance result.length
                    (Tokeniser.readWhitespace (st.input.length + 1) st))).2.input.length + 1)
              (Tokeniser.addToken result.token
                  (Tokeniser.advance result.length
                    (Tokeniser.readWhitespace (st.input.length + 1) st))).2) with
        | error e =>
          rw [hrec] at h
          exact Except.noConfusion h
        | ok rest =>
          rw [hrec] at h
          replace h : Except.ok
              (((Tokeniser.addToken result.token
                    (Tokeniser.advance result.length
                      (Tokeniser.readWhitespace (st.input.length + 1) st))).1,
                  (Tokeniser.addToken result.token
                      (Tokeniser.advance result.length
                        (Tokeniser.readWhitespace (st.input.length + 1) st))).2.position)
                :: rest) = Except.ok l := h
          injection h with h2
          subst h2
          intro tp htp
          rcases List.mem_cons.mp htp with rfl | htp2
          · constructor
            · rfl
            · left
              show (Tokeniser.readWhitespace (st.input.length + 1) st).tokenStart.position
                ≤ (((Tokeniser.readWhitespace (st.input.length + 1) st).position
                      + result.length : Nat) : Int) - 1
              omega
          · exact ih _ (readWhitespace_tokenStart _ _ rfl) rest hrec tp htp2
    · replace h : Except.ok
          [((Tokeniser.addToken { type := tt.EOF, value := "EOF" } st).1,
            (Tokeniser.addToken { type := tt.EOF, value := "EOF" } st).2.position)]
          = Except.ok l := h
      injection h with h2
      subst h2
      intro tp htp
      rcases List.mem_cons.mp htp with rfl | htp2
      · constructor
        · rfl
        · right
          constructor
          · rfl
          · show st.tokenStart.position = ((st.position : Int) - 1) + 1
            omega
      · exact absurd htp2 (List.not_mem_nil tp)

/-- C3, amended: for every token and emission cursor the tokeniser
produces, the end offset equals the cursor immediately after the token's
characters were consumed MINUS ONE (the end is inclusive, not exclusive),
and start ≤ end holds for every token except the EOF token, whose start
offset is end + 1. -/
theorem C3_token_spans (source : String) (l : List (Token × Nat))
    (h : Tokeniser.tokeniseAux source = .ok l) :
    ∀ tp ∈ l,
      tp.1.location.endPos.position = (tp.2 : Int) - 1 ∧
      (tp.1.location.start.position ≤ tp.1.location.endPos.position
        ∨ (tp.1.type = tt.EOF
            ∧ tp.1.location.start.position = tp.1.location.endPos.position + 1)) :=
  tokeniseLoop_spans (source.length + 1) (Tokeniser.initState source.data) rfl l h

set_option smartUnfolding false in
set_option maxHeartbeats 1000000 in
/-- C3 witness at the concrete source "x": the identifier token's end
offset is the emission cursor 1 minus one, and its start does not exceed
its end. -/
theorem C3_token_spans_witness :
    (tk tt.Identifier "x" 0 0 1 0).location.endPos.position = ((1 : Nat) : Int) - 1
      ∧ ((tk tt.Identifier "x" 0 0 1 0).location.start.position
            ≤ (tk tt.Identifier "x" 0 0 1 0).location.endPos.position
          ∨ ((tk tt.Identifier "x" 0 0 1 0).type = tt.EOF
              ∧ (tk tt.Identifier "x" 0 0 1 0).location.start.position
                  = (tk tt.Identifier "x" 0 0 1 0).location.endPos.position + 1)) :=
  C3_token_spans "x" [(tk tt.Identifier "x" 0 0 1 0, 1), (tk tt.EOF "EOF" 1 1 1 0, 1)]
    rfl (tk tt.Identifier "x" 0 0 1 0, 1) (by decide)

theorem identRest_charCode (c : Char) (h1 : isRegexIdentRest c = true) (h9 : c ≠ '9') :
    isIdentifierCharCode c.toNat = true := by
  have h57 : c.toNat ≠ 57 := by
    intro he
    apply h9
    apply Char.ext
    apply UInt32.ext
    simpa [Char.toNat] using he
  unfold isRegexIdentRest isRegexIdentFirst at h1
  unfold isIdentifierCharCode
  simp only [Bool.or_eq_true, Bool.and_eq_true, decide_eq_true_eq, beq_iff_eq] at h1 ⊢
  rcases h1 with ((((⟨ha, hb⟩ | ⟨ha, hb⟩) | hc) | hc) | ⟨ha, hb⟩)
  · have ha2 : 97 ≤ c.toNat := by simp [Char.le_def] at ha; exact ha
    have hb2 : c.toNat ≤ 122 := by simp [Char.le_def] at hb; exact hb
    omega
  · have ha2 : 65 ≤ c.toNat := by simp [Char.le_def] at ha; exact ha
    have hb2 : c.toNat ≤ 90 := by simp [Char.le_def] at hb; exact hb
    omega
  · subst hc
    decide
  · subst hc
    decide
  · have ha2 : 48 ≤ c.toNat := by simp [Char.le_def] at ha; exact ha
    have hb2 : c.toNat ≤ 57 := by simp [Char.le_def] at hb; exact hb
    omega

/-- Every character of a regex-matching identifier is an identifier-rest
character. -/
theorem matchesIdentifierRegex_all (N : String) (hregex : matchesIdentifierRegex N = true) :
    ∀ a ∈ N.data, isRegexIdentRest a = true := by
  unfold matchesIdentifierRegex at hregex
  intro a ha
  cases hd : N.data with
  | nil => rw [hd] at ha; exact absurd ha (List.not_mem_nil a)
  | cons c0 tl =>
    rw [hd] at hregex ha
    obtain ⟨h1, h2⟩ := Bool.and_eq_true_iff.mp hregex
    rcases List.mem_cons.mp ha with he | he
    · subst he
      unfold isRegexIdentRest
      rw [h1]
      rfl
    · exact List.all_eq_true.mp h2 _ he

/-- A keyword matcher fails on an identifier that is not the keyword
itself and whose character after a keyword prefix is not the digit 9. -/
theorem keywordMatcher_fails (ty : TokenType) (k : String) (N : String)
    (hregex : matchesIdentifierRegex N = true)
    (hne : N ≠ k)
    (h9 : ¬(k.data.isPrefixOf N.data = true ∧ N.data.get? k.length = some '9')) :
    keywordMatcher ty k N.data = none := by
  unfold keywordMatcher
  cases hp : k.data.isPrefixOf N.data with
  | false => rfl
  | true =>
    have hpre : k.data <+: N.data := List.isPrefixOf_iff_prefix.mp hp
    have hlen : k.data.length ≤ N.data.length := hpre.length_le
    rcases Nat.lt_or_ge k.data.length N.data.length with hlt | hge
    · have hc : N.data.get? k.data.length = some (N.data.get ⟨k.data.length, hlt⟩) :=
        List.get?_eq_get hlt
      have hc9 : N.data.get ⟨k.data.length, hlt⟩ ≠ '9' := by
        intro he
        exact h9 ⟨hp, by rw [show String.length k = k.data.length from rfl, hc, he]⟩
      have hmem : N.data.get ⟨k.data.length, hlt⟩ ∈ N.data := List.get_mem _ _ _
      have hrest : isRegexIdentRest (N.data.get ⟨k.data.length, hlt⟩) = true :=
        matchesIdentifierRegex_all N hregex _ hmem
      have hcc : isIdentifierCharCode (N.data.get ⟨k.data.length, hlt⟩).toNat = true :=
        identRest_charCode _ hrest hc9
      have hat : isIdentifierCharCodeAt N.data k.length = true := by
        unfold isIdentifierCharCodeAt
        rw [show charCodeAt N.data k.length
            = some (N.data.get ⟨k.data.length, hlt⟩).toNat from by
          unfold charCodeAt
          rw [show String.length k = k.data.length from rfl, hc]
          rfl]
        exact hcc
      rw [hat]
      rfl
    · have heq : k.data = N.data := List.IsPrefix.eq_of_length hpre (Nat.le_antisymm hlen hge)
      exact absurd (String.ext heq.symm) hne

theorem iteBucketKw (b : Prop) [Decidable b] (v w : Option (List TokenMatcher))
    (hv : BucketKw v) (hw : BucketKw w) : BucketKw (if b then v else w) := by
  intro ms h
  by_cases hb : b
  · rw [if_pos hb] at h
    exact hv ms h
  · rw [if_neg hb] at h
    exact hw ms h

theorem someBucketKw (L : List TokenMatcher)
    (hL : ∀ m ∈ L, ∃ ty k, k ∈ keywordStrings ∧ m = keywordMatcher ty k) :
    BucketKw (some L) := by
  intro ms h m hm
  injection h with h2
  subst h2
  exact hL m hm

/-- When the next character can start an identifier, the matcher map's
bucket — if any — holds only keyword matchers. -/
theorem matcherMapGet_identFirst (c : Char) (hident : isRegexIdentFirst c = true) :
    BucketKw (matcherMapGet c) := by
  unfold matcherMapGet
  repeat
    first
      | exact fun ms h => Option.noConfusion h
      | (rw [if_neg (by intro hc; subst hc; exact absurd hident (by decide))])
      | (refine iteBucketKw _ _ _ (someBucketKw _ ?_) ?_; swap)
  all_goals
    (intro m hm; fin_cases hm <;> exact ⟨_, _, by decide, rfl⟩)

/-- A candidate list of failing keyword matchers yields no match. -/
theorem findFirstMatch_keywords_none (ms : List TokenMatcher) (N : String)
    (hall : ∀ m ∈ ms, ∃ ty k, k ∈ keywordStrings ∧ m = keywordMatcher ty k)
    (hfail : ∀ (ty : TokenType) (k : String), k ∈ keywordStrings →
      keywordMatcher ty k N.data = none) :
    findFirstMatch ms N.data = none := by
  induction ms with
  | nil => rw [findFirstMatch]
  | cons m ms ih =>
    obtain ⟨ty, k, hk, hm⟩ := hall m (List.mem_cons_self _ _)
    rw [findFirstMatch, hm, hfail ty k hk]
    exact ih (fun m2 hm2 => hall m2 (List.mem_cons_of_mem _ hm2))

/-- The identifier regex consumes an entire string that matches it. -/
theorem matchIdentifierRegex_full (N : String) (hregex : matchesIdentifierRegex N = true) :
    matchIdentifierRegex N.data = some
      { length := N.data.length,
        token := { type := tt.Identifier, value := N } } := by
  unfold matchesIdentifierRegex at hregex
  cases hd : N.data with
  | nil => rw [hd] at hregex; exact Bool.noConfusion hregex
  | cons c rest =>
    rw [hd] at hregex
    obtain ⟨h1, h2⟩ := Bool.and_eq_true_iff.mp hregex
    have htw : rest.takeWhile isRegexIdentRest = rest :=
      List.takeWhile_eq_self_iff.mpr (fun a ha => List.all_eq_true.mp h2 a ha)
    show (if isRegexIdentFirst c = true then
        some { length := (c :: rest.takeWhile isRegexIdentRest).length,
               token := { type := tt.Identifier,
                          value := String.mk (c :: rest.takeWhile isRegexIdentRest) } }
      else (none : Option MatchSuccess))
      = some { length := (c :: rest).length,
               token := { type := tt.Identifier, value := N } }
    rw [if_pos h1, htw, show String.mk (c :: rest) = N from String.ext hd.symm]

/-- readWhitespace does nothing when the cursor's character cannot start
whitespace (here: when it can start an identifier). -/
theorem readWhitespace_no_ws (fuel : Nat) (st : LexState)
    (hc : ∀ cc, st.input.get? st.position = some cc → isRegexIdentFirst cc = true) :
    Tokeniser.readWhitespace fuel st = st := by
  cases fuel with
  | zero => rw [Tokeniser.readWhitespace]
  | succ n =>
    by_cases h : st.position < st.input.length
    · have hg : st.input.get? st.position = some (st.input.get ⟨st.position, h⟩) :=
        List.get?_eq_get h
      have hi := hc _ hg
      have h1 : ¬(st.input.get ⟨st.position, h⟩ = ' '
          ∨ st.input.get ⟨st.position, h⟩ = '\r'
          ∨ st.input.get ⟨st.position, h⟩ = '\t') := by
        rintro (he | he | he) <;> (rw [he] at hi; exact absurd hi (by decide))
      have h2 : ¬(st.input.get ⟨st.position, h⟩ = '\n') := by
        intro he
        rw [he] at hi
        exact absurd hi (by decide)
      rw [readWhitespace_step n st h, if_neg h1, if_neg h2]
    · rw [Tokeniser.readWhitespace, dif_neg h]

/-- readWhitespace does nothing once the cursor is at or past the end. -/
theorem readWhitespace_at_end (fuel : Nat) (st : LexState)
    (h : ¬st.position < st.input.length) :
    Tokeniser.readWhitespace fuel st = st := by
  cases fuel with
  | zero => rw [Tokeniser.readWhitespace]
  | succ n => rw [Tokeniser.readWhitespace, dif_neg h]

/-- One step of the tokenise loop, written out. -/
theorem tokeniseLoop_step (fuel : Nat) (st : LexState) :
    Tokeniser.tokeniseLoop (fuel + 1) st =
      if st.position < st.input.length then
        match Tokeniser.dispatchMatch
            ((Tokeniser.readWhitespace (st.input.length + 1) st).input.drop
              (Tokeniser.readWhitespace (st.input.length + 1) st).position)
            ((Tokeniser.readWhitespace (st.input.length + 1) st).input.get?
              (Tokeniser.readWhitespace (st.input.length + 1) st).position) with
        | some result =>
          Except.map
            (fun rest =>
              ((Tokeniser.addToken result.token
                  (Tokeniser.advance result.length
                    (Tokeniser.readWhitespace (st.input.length + 1) st))).1,
                (Tokeniser.addToken result.token
                    (Tokeniser.advance result.length
                      (Tokeniser.readWhitespace (st.input.length + 1) st))).2.position)
              :: rest)
            (Tokeniser.tokeniseLoop fuel
              (Tokeniser.readWhitespace
                ((Tokeniser.addToken result.token
                    (Tokeniser.advance result.length
                      (Tokeniser.readWhitespace (st.input.length + 1) st))).2.input.length + 1)
                (Tokeniser.addToken result.token
                    (Tokeniser.advance result.length
                      (Tokeniser.readWhitespace (st.input.length + 1) st))).2))
        | none =>
          .error (.error ("Unable to match input "
            ++ String.mk ((Tokeniser.readWhitespace (st.input.length + 1) st).input.drop
                (Tokeniser.readWhitespace (st.input.length + 1) st).position)))
      else
        .ok [((Tokeniser.addToken { type := tt.EOF, value := "EOF" } st).1,
              (Tokeniser.addToken { type := tt.EOF, value := "EOF" } st).2.position)] :=
  rfl

/-- The tokenise loop at the end of the input emits only the EOF token. -/
theorem tokeniseLoop_at_end (fuel : Nat) (st : LexState)
    (h : ¬st.position < st.input.length) (hf : 1 ≤ fuel) :
    Tokeniser.tokeniseLoop fuel st =
      .ok [((Tokeniser.addToken { type := tt.EOF, value := "EOF" } st).1,
            (Tokeniser.addToken { type := tt.EOF, value := "EOF" } st).2.position)] := by
  cases fuel with
  | zero => exact absurd hf (by omega)
  | succ n => rw [tokeniseLoop_step, if_neg h]

set_option smartUnfolding false in
/-- tokeniseLoop on a state whose whitespace read is a no-op and whose
dispatch succeeds: one token is emitted and the loop recurses. -/
theorem tokeniseLoop_step_match (fuel : Nat) (st : LexState)
    (hpos : st.position < st.input.length)
    (hws0 : Tokeniser.readWhitespace (st.input.length + 1) st = st)
    (res : MatchSuccess)
    (hdisp : Tokeniser.dispatchMatch (st.input.drop st.position) (st.input.get? st.position)
      = some res) :
    Tokeniser.tokeniseLoop (fuel + 1) st =
      Except.map (fun rest =>
        ((Tokeniser.addToken res.token (Tokeniser.advance res.length st)).1,
         (Tokeniser.addToken res.token (Tokeniser.advance res.length st)).2.position) :: rest)
        (Tokeniser.tokeniseLoop fuel
          (Tokeniser.readWhitespace
            ((Tokeniser.addToken res.token (Tokeniser.advance res.length st)).2.input.length + 1)
            (Tokeniser.addToken res.token (Tokeniser.advance res.length st)).2)) := by
  rw [tokeniseLoop_step, if_pos hpos, hws0, hdisp]

set_option smartUnfolding false in
set_option maxHeartbeats 1000000 in
/-- Tokenising a regex-matching identifier that is not a keyword (and that
no keyword-plus-digit-9 quirk captures) yields exactly an Identifier token
carrying the whole string, followed by the EOF token. -/
theorem tokenise_identifier (N : String)
    (hregex : matchesIdentifierRegex N = true)
    (hkw : N ∉ keywordStrings)
    (h9 : ∀ k ∈ keywordStrings,
      ¬(k.data.isPrefixOf N.data = true ∧ N.data.get? k.length = some '9')) :
    ∃ loc1 loc2, Tokeniser.tokenise N = .ok
      [{ type := tt.Identifier, value := N, location := loc1 },
       { type := tt.EOF, value := "EOF", location := loc2 }] := by
  have hne : N.data ≠ [] := by
    intro hnil
    unfold matchesIdentifierRegex at hregex
    rw [hnil] at hregex
    exact Bool.noConfusion hregex
  have hlen : 0 < N.data.length := List.length_pos.mpr hne
  obtain ⟨c, rest, hd⟩ : ∃ c rest, N.data = c :: rest := by
    cases hnd : N.data with
    | nil => exact absurd hnd hne
    | cons c rest => exact ⟨c, rest, rfl⟩
  have hident : isRegexIdentFirst c = true := by
    have hregex2 := hregex
    unfold matchesIdentifierRegex at hregex2
    rw [hd] at hregex2
    exact (Bool.and_eq_true_iff.mp hregex2).1
  have hws : Tokeniser.readWhitespace ((Tokeniser.initState N.data).input.length + 1)
      (Tokeniser.initState N.data) = Tokeniser.initState N.data :=
    readWhitespace_no_ws _ _ (fun cc hcc => by
      rw [show (Tokeniser.initState N.data).input.get? (Tokeniser.initState N.data).position
          = N.data.get? 0 from rfl, hd] at hcc
      injection hcc with he
      rw [← he]
      exact hident)
  have hdisp : Tokeniser.dispatchMatch N.data (some c)
      = some { length := N.data.length, token := { type := tt.Identifier, value := N } } := by
    show (match (match matcherMapGet c with
        | some matchers => findFirstMatch matchers N.data
        | none => none) with
      | some result => some result
      | none => findFirstMatch otherCharsMatchers N.data)
      = some { length := N.data.length, token := { type := tt.Identifier, value := N } }
    cases hg : matcherMapGet c with
    | none =>
      show findFirstMatch otherCharsMatchers N.data
        = some { length := N.data.length, token := { type := tt.Identifier, value := N } }
      rw [show otherCharsMatchers = [matchIdentifierRegex, matchNumberRegex] from rfl]
      rw [findFirstMatch, matchIdentifierRegex_full N hregex]
    | some ms =>
      show (match findFirstMatch ms N.data with
        | some result => some result
        | none => findFirstMatch otherCharsMatchers N.data)
        = some { length := N.data.length, token := { type := tt.Identifier, value := N } }
      rw [findFirstMatch_keywords_none ms N (matcherMapGet_identFirst c hident ms hg)
        (fun ty k hk => keywordMatcher_fails ty k N hregex
          (fun he => hkw (by rw [he]; exact hk)) (h9 k hk))]
      show findFirstMatch otherCharsMatchers N.data
        = some { length := N.data.length, token := { type := tt.Identifier, value := N } }
      rw [show otherCharsMatchers = [matchIdentifierRegex, matchNumberRegex] from rfl]
      rw [findFirstMatch, matchIdentifierRegex_full N hregex]
  have hget : (Tokeniser.initState N.data).input.get? (Tokeniser.initState N.data).position
      = some c := by
    rw [show (Tokeniser.initState N.data).input.get? (Tokeniser.initState N.data).position
        = N.data.get? 0 from rfl]
    rw [hd]
    rfl
  have hdisp2 : Tokeniser.dispatchMatch
      ((Tokeniser.initState N.data).input.drop (Tokeniser.initState N.data).position)
      ((Tokeniser.initState N.data).input.get? (Tokeniser.initState N.data).position)
      = some { length := N.data.length, token := { type := tt.Identifier, value := N } } := by
    rw [hget]
    rw [show (Tokeniser.initState N.data).input.drop (Tokeniser.initState N.data).position
        = N.data from List.drop_zero N.data]
    exact hdisp
  have hend : ¬((Tokeniser.addToken
        ({ length := N.data.length,
           token := { type := tt.Identifier, value := N } } : MatchSuccess).token
        (Tokeniser.advance
          ({ length := N.data.length,
             token := { type := tt.Identifier, value := N } } : MatchSuccess).length
          (Tokeniser.initState N.data))).2.position
      < (Tokeniser.addToken
          ({ length := N.data.length,
             token := { type := tt.Identifier, value := N } } : MatchSuccess).token
          (Tokeniser.advance
            ({ length := N.data.length,
               token := { type := tt.Identifier, value := N } } : MatchSuccess).length
            (Tokeniser.initState N.data))).2.input.length) := by
    show ¬(0 + N.data.length < N.data.length)
    omega
  refine ⟨{ start := { line := 0, column := 0, position := 0 },
            endPos := { line := 0, column := 0 + (N.data.length : Int),
                        position := ((0 + N.data.length : Nat) : Int) - 1 } },
          { start := { line := 0, column := 0 + (N.data.length : Int),
                       position := ((0 + N.data.length : Nat) : Int) },
            endPos := { line := 0, column := 0 + (N.data.length : Int),
                        position := ((0 + N.data.length : Nat) : Int) - 1 } }, ?_⟩
  unfold Tokeniser.tokenise Tokeniser.tokeniseAux
  rw [tokeniseLoop_step_match (String.length N) (Tokeniser.initState N.data)
    (show (Tokeniser.initState N.data).position < (Tokeniser.initState N.data).input.length
      from hlen)
    hws _ hdisp2]
  rw [readWhitespace_at_end _ _ hend]
  rw [tokeniseLoop_at_end (String.length N) _ hend (show 1 ≤ String.length N from hlen)]
  rfl

set_option smartUnfolding false in
set_option maxHeartbeats 4000000 in
/-- With the token stream of a lone identifier, the expression entry point
returns the Identifier node carrying the token's value. -/
theorem parseExpression_entry_identifier (N : String) (loc1 loc2 : SourceLocation)
    (htok : Tokeniser.tokenise N = .ok
      [{ type := tt.Identifier, value := N, location := loc1 },
       { type := tt.EOF, value := "EOF", location := loc2 }]) :
    parseExpression N { omitLocations := true } = .ok (t.identifier N) := by
  unfold parseExpression
  rw [htok]
  rfl

/-- C5, amended: parseExpression(N).name = N holds for a string N matching
the identifier regex `[A-Za-z_$][A-Za-z0-9_$]*` provided N is not one of
the 35 keyword strings and no keyword k is a prefix of N followed by the
digit 9 in N (the isIdentifierCharCode off-by-one excludes the digit 9, so
such strings lex as a keyword followed by a number instead). -/
theorem C5_identifier_name_roundtrip (N : String)
    (hregex : matchesIdentifierRegex N = true)
    (hkw : N ∉ keywordStrings)
    (h9 : ∀ k ∈ keywordStrings,
      ¬(k.data.isPrefixOf N.data = true ∧ N.data.get? k.length = some '9')) :
    parseExpression N { omitLocations := true } = .ok (t.identifier N) := by
  obtain ⟨loc1, loc2, htok⟩ := tokenise_identifier N hregex hkw h9
  exact parseExpression_entry_identifier N loc1 loc2 htok

/-- C5 witness at the concrete identifier "abc". -/
theorem C5_identifier_name_roundtrip_witness :
    (matchesIdentifierRegex "abc" = true ∧ "abc" ∉ keywordStrings)
      ∧ parseExpression "abc" { omitLocations := true } = .ok (t.identifier "abc") :=
  ⟨⟨by decide, by decide⟩,
   C5_identifier_name_roundtrip "abc" (by decide) (by decide) (by decide)⟩
